import Mathlib

/-!
Verification of the PrunArr watch-status correlation and removal-eligibility
engine. The Python sources (prunarr/prunarr.py, prunarr/services/series_service.py,
prunarr/services/user_service.py, prunarr/utils/parsers.py) are shallowly
embedded below: dictionaries become association lists preserving insertion
order, Python truthiness of optional values is modelled explicitly, epoch
timestamps are integers, and `timedelta.days` is integer floor division by
86400 (`Int.fdiv`). Collaborator calls (Radarr/Sonarr/Tautulli HTTP lookups)
are parameters of the embedded functions, so every function is a pure function
of the already-fetched data, exactly as the engine treats it.
-/

/-- Association-list lookup: value of the first binding whose key equals `k`
(the semantics of Python `dict.get`). -/
def alookup {α β : Type} [DecidableEq α] (l : List (α × β)) (k : α) : Option β :=
  match l with
  | [] => none
  | (k₁, v) :: t => if k₁ = k then some v else alookup t k

/-- Association-list update: replace the first binding for `k`, or append a new
binding at the end (Python `dict.__setitem__`, insertion order preserved). -/
def aset {α β : Type} [DecidableEq α] (l : List (α × β)) (k : α) (v : β) :
    List (α × β) :=
  match l with
  | [] => [(k, v)]
  | (k₁, v₁) :: t => if k₁ = k then (k, v) :: t else (k₁, v₁) :: aset t k v

/-- Python truthiness of an optional string: `None` and `""` are falsy. -/
def truthyStr (o : Option String) : Prop := o.getD "" ≠ ""

instance (o : Option String) : Decidable (truthyStr o) := by
  unfold truthyStr; infer_instance

/-- A Radarr/Sonarr tag record as consumed by the engine: only its optional
`label` field is read (`tag.get("label", "")`). -/
structure Tag where
  label : Option String
deriving DecidableEq

/-- PrunArr.get_user_tags (prunarr/prunarr.py:100-114): walk `tag_ids` in
order; a raised lookup (`Except.error`) is swallowed and iteration continues;
the capture group of the first label matching the configured pattern is
returned. `pattern` stands for the compiled `tag_pattern`: it returns
`match.group(1)` on success and `none` when the label does not match. -/
def get_user_tags (lookup : Nat → Except Unit Tag)
    (pattern : String → Option String) : List Nat → Option String
  | [] => none
  | tagId :: rest =>
    match lookup tagId with
    | .error _ => get_user_tags lookup pattern rest
    | .ok tag =>
      match pattern (tag.label.getD "") with
      | some u => some u
      | none => get_user_tags lookup pattern rest

/-- UserService.extract_username_from_tags
(prunarr/services/user_service.py:34-63); its body is identical to
PrunArr.get_user_tags. -/
def extract_username_from_tags (lookup : Nat → Except Unit Tag)
    (pattern : String → Option String) : List Nat → Option String
  | [] => none
  | tagId :: rest =>
    match lookup tagId with
    | .error _ => extract_username_from_tags lookup pattern rest
    | .ok tag =>
      match pattern (tag.label.getD "") with
      | some u => some u
      | none => extract_username_from_tags lookup pattern rest

/-- Specification-side tag resolution, written from the spec's words: the
capture group of the first tag, in input order, whose label matches the
pattern; failed lookups are skipped; `none` when nothing matches. -/
def resolveTagSpec (lookup : Nat → Except Unit Tag)
    (pattern : String → Option String) (tagIds : List Nat) : Option String :=
  (tagIds.filterMap
    (fun tagId => (lookup tagId).toOption.bind
      (fun tag => pattern (tag.label.getD "")))).head?

theorem get_user_tags_eq_spec (lookup : Nat → Except Unit Tag)
    (pattern : String → Option String) (tagIds : List Nat) :
    get_user_tags lookup pattern tagIds = resolveTagSpec lookup pattern tagIds := by
  induction tagIds with
  | nil => rfl
  | cons tagId rest ih =>
    unfold get_user_tags resolveTagSpec
    unfold resolveTagSpec at ih
    cases h : lookup tagId with
    | error e => simpa [List.filterMap_cons, h, Except.toOption] using ih
    | ok tag =>
      cases hp : pattern (tag.label.getD "") with
      | none => simpa [List.filterMap_cons, h, Except.toOption, hp] using ih
      | some u => simp [List.filterMap_cons, h, Except.toOption, hp]

theorem extract_username_eq_get_user_tags (lookup : Nat → Except Unit Tag)
    (pattern : String → Option String) (tagIds : List Nat) :
    extract_username_from_tags lookup pattern tagIds =
      get_user_tags lookup pattern tagIds := by
  induction tagIds with
  | nil => rfl
  | cons tagId rest ih =>
    unfold extract_username_from_tags get_user_tags
    cases h : lookup tagId with
    | error e => simpa using ih
    | ok tag =>
      cases hp : pattern (tag.label.getD "") with
      | none => simpa [hp] using ih
      | some u => simp [hp]

/-- C10: tag resolution (get_user_tags / extract_username_from_tags) returns
the capture group of the first tag, in input order, whose label matches the
configured pattern; it returns `none` on an empty list or when no label
matches; a throwing lookup of an individual tag is skipped and iteration
continues (both functions are total, so they never raise to the caller). -/
theorem tag_resolution_first_match (lookup : Nat → Except Unit Tag)
    (pattern : String → Option String) (tagIds : List Nat) :
    get_user_tags lookup pattern tagIds = resolveTagSpec lookup pattern tagIds ∧
    extract_username_from_tags lookup pattern tagIds =
      resolveTagSpec lookup pattern tagIds ∧
    get_user_tags lookup pattern [] = none ∧
    ((∀ tagId ∈ tagIds, ∀ tag, lookup tagId = .ok tag →
        pattern (tag.label.getD "") = none) →
      get_user_tags lookup pattern tagIds = none) := by
  refine ⟨get_user_tags_eq_spec lookup pattern tagIds,
    (extract_username_eq_get_user_tags lookup pattern tagIds).trans
      (get_user_tags_eq_spec lookup pattern tagIds), rfl, ?_⟩
  intro hnone
  induction tagIds with
  | nil => rfl
  | cons tagId rest ih =>
    unfold get_user_tags
    cases h : lookup tagId with
    | error e =>
      exact ih (fun t ht tag htag => hnone t (List.mem_cons_of_mem _ ht) tag htag)
    | ok tag =>
      have hp := hnone tagId (List.mem_cons_self _ _) tag h
      simpa [hp] using
        ih (fun t ht tg htag => hnone t (List.mem_cons_of_mem _ ht) tg htag)

/-- A raw Radarr movie as read by the engine: `movieFile` presence is a
boolean (its contents are only used for display fields), tags are tag ids. -/
structure RawMovie where
  movieId : Nat
  title : String
  imdbId : Option String
  tags : List Nat
  hasFile : Bool
deriving DecidableEq

/-- A movie enriched by PrunArr.get_all_radarr_movies: the fields the
eligibility engine reads (id, title, imdb_id, user, tags); display-only
fields (year, file size, added, monitored) are omitted. -/
structure MovieRec where
  movieId : Nat
  title : String
  imdb_id : Option String
  user : Option String
  tags : List Nat
deriving DecidableEq

/-- PrunArr.get_all_radarr_movies (prunarr/prunarr.py:143-184): keep movies
with a downloaded file, resolve the requester from tags, and skip untagged
movies (falsy username) unless `include_untagged`. -/
def get_all_radarr_movies (movies : List RawMovie)
    (tagLookup : Nat → Except Unit Tag) (pattern : String → Option String)
    (includeUntagged : Bool) : List MovieRec :=
  movies.filterMap (fun movie =>
    if !movie.hasFile then none
    else
      let username :=
        if movie.tags ≠ [] then get_user_tags tagLookup pattern movie.tags
        else none
      if ¬includeUntagged ∧ ¬truthyStr username then none
      else some ⟨movie.movieId, movie.title, movie.imdbId, username, movie.tags⟩)

/-- A completed-movie watch record as produced by
TautulliAPI.get_movie_completed_history: `rating_key` and `watched_at`
("date") may be missing, the watcher is the `friendly_name`. -/
structure MovieHistRecord where
  rating_key : Option Int
  user : String
  watched_at : Option Int
deriving DecidableEq

/-- The per-movie watch index entry: each watcher's most recent watch
timestamp, plus the movie-wide most recent watch across all watchers
(prunarr/prunarr.py:217-232). -/
structure MovieWatchInfo where
  watchers : List (String × Int)
  most_recent_watch : Int
deriving DecidableEq

/-- Admission test of one movie history record (prunarr/prunarr.py:210-213):
a truthy rating key that resolves to a truthy IMDB id
(`get_imdb_id_from_rating_key`, parameterized as `ratingToImdb`) and a truthy
`watched_at`; yields the (imdb id, watcher, timestamp) event. -/
def movieEventOf (ratingToImdb : Int → Option String) (r : MovieHistRecord) :
    Option (String × String × Int) :=
  match r.rating_key with
  | none => none
  | some ratingKey =>
    if ratingKey = 0 then none
    else
      match ratingToImdb ratingKey with
      | none => none
      | some imdbId =>
        if imdbId = "" then none
        else
          match r.watched_at with
          | none => none
          | some ts => if ts = 0 then none else some (imdbId, r.user, ts)

/-- Per-watcher max-timestamp update (prunarr/prunarr.py:224-228 and
prunarr/prunarr.py:477-482): store the timestamp if the watcher is new or the
new timestamp is strictly larger. -/
def updateWatcher (watchers : List (String × Int)) (u : String) (ts : Int) :
    List (String × Int) :=
  match alookup watchers u with
  | none => aset watchers u ts
  | some old => if ts > old then aset watchers u ts else watchers

/-- One step of building the movie watch lookup
(prunarr/prunarr.py:209-232): on an admitted event, initialize the entry if
absent (most_recent_watch starts at this timestamp), update the watcher's max
timestamp, and raise the movie-wide most recent watch if strictly newer. -/
def movieHistStep (ratingToImdb : Int → Option String)
    (acc : List (String × MovieWatchInfo)) (r : MovieHistRecord) :
    List (String × MovieWatchInfo) :=
  match movieEventOf ratingToImdb r with
  | none => acc
  | some (imdbId, u, ts) =>
    let info := (alookup acc imdbId).getD ⟨[], ts⟩
    let newMostRecent :=
      if ts > info.most_recent_watch then ts else info.most_recent_watch
    aset acc imdbId ⟨updateWatcher info.watchers u ts, newMostRecent⟩

/-- The movie watch lookup of PrunArr.get_movies_with_watch_status
(prunarr/prunarr.py:208-232), keyed by IMDB id. -/
def buildMovieWatchLookup (ratingToImdb : Int → Option String)
    (hist : List MovieHistRecord) : List (String × MovieWatchInfo) :=
  hist.foldl (movieHistStep ratingToImdb) []

/-- PrunArr movie watch-status determination (prunarr/prunarr.py:260-274):
the exact if/elif/elif/else chain over the requester (with Python truthiness)
and the list of watcher names. -/
def movieWatchStatus (movieUser : Option String) (allWatchers : List String) :
    String :=
  if allWatchers = [] then "unwatched"
  else if truthyStr movieUser ∧ movieUser.getD "" ∈ allWatchers then "watched"
  else if truthyStr movieUser ∧ movieUser.getD "" ∉ allWatchers then
    "watched_by_other"
  else "watched"

/-- A movie annotated with watch status
(prunarr/prunarr.py:276-283): the display string `watched_by` is omitted. -/
structure MovieStatusRec where
  movieId : Nat
  title : String
  imdb_id : Option String
  user : Option String
  tags : List Nat
  watch_status : String
  watched_at : Option Int
  days_since_watched : Option Int
  all_watchers : List String
deriving DecidableEq

/-- Annotation of one movie inside PrunArr.get_movies_with_watch_status
(prunarr/prunarr.py:243-283): look the movie up by IMDB id, derive days since
the most recent watch by any watcher (`timedelta.days` is floor division of
the second difference by 86400), and compute the watch status. -/
def annotateMovie (lookup : List (String × MovieWatchInfo)) (now : Int)
    (movie : MovieRec) : MovieStatusRec :=
  let watchInfo := movie.imdb_id.bind (alookup lookup)
  let watchers := (watchInfo.map (·.watchers)).getD []
  let watchedAt :=
    match watchInfo with
    | some info =>
      if info.most_recent_watch ≠ 0 then some info.most_recent_watch else none
    | none => none
  let daysSince :=
    match watchInfo with
    | some info =>
      if info.most_recent_watch ≠ 0 then
        some (Int.fdiv (now - info.most_recent_watch) 86400)
      else none
    | none => none
  let allWatchers := watchers.map (·.1)
  ⟨movie.movieId, movie.title, movie.imdb_id, movie.user, movie.tags,
    movieWatchStatus movie.user allWatchers, watchedAt, daysSince, allWatchers⟩

/-- PrunArr.get_movies_with_watch_status (prunarr/prunarr.py:186-287):
build the watch lookup from Tautulli history, apply the (truthy) username
filter, and annotate every movie. -/
def get_movies_with_watch_status (movies : List RawMovie)
    (tagLookup : Nat → Except Unit Tag) (pattern : String → Option String)
    (hist : List MovieHistRecord) (ratingToImdb : Int → Option String)
    (includeUntagged : Bool) (usernameFilter : Option String) (now : Int) :
    List MovieStatusRec :=
  let allMovies := get_all_radarr_movies movies tagLookup pattern includeUntagged
  let lookup := buildMovieWatchLookup ratingToImdb hist
  let filtered :=
    if truthyStr usernameFilter then
      allMovies.filter (fun m => m.user = usernameFilter)
    else allMovies
  filtered.map (annotateMovie lookup now)

/-- PrunArr.get_movies_ready_for_removal (prunarr/prunarr.py:289-309): keep
annotated movies (untagged excluded) whose status is "watched" and whose
days_since_watched is present and at least `daysWatched`. -/
def movieRemovalCheck (daysWatched : Int) (m : MovieStatusRec) : Bool :=
  m.watch_status == "watched" &&
    match m.days_since_watched with
    | some d => decide (d ≥ daysWatched)
    | none => false

/-- PrunArr.get_movies_ready_for_removal, continued: the filter over the
annotated movies. -/
def get_movies_ready_for_removal (movies : List RawMovie)
    (tagLookup : Nat → Except Unit Tag) (pattern : String → Option String)
    (hist : List MovieHistRecord) (ratingToImdb : Int → Option String)
    (now : Int) (daysWatched : Int) : List MovieStatusRec :=
  (get_movies_with_watch_status movies tagLookup pattern hist ratingToImdb
      false none now).filter (movieRemovalCheck daysWatched)

/-- C5 counterexample: a movie with no requester and a non-empty watcher set
gets status "watched" (the same status string as watched-by-requester), not
"watched_by_other" as the claim's first row states. -/
theorem movie_status_untagged_cex :
    movieWatchStatus none ["bob"] = "watched" ∧
    movieWatchStatus none ["bob"] ≠ "watched_by_other" := by
  constructor
  · rfl
  · intro h
    simp [movieWatchStatus, truthyStr] at h

/-- C5 (amended): the movie watch-status function computes: requester `none`
with a non-empty watcher set → "watched" (untagged items are treated as
watched, not as watched-by-other); requester `some u` (non-empty) with `u`
among the watchers → "watched"; requester `some u` (non-empty) with a
non-empty watcher set excluding `u` → "watched_by_other"; any requester with
an empty watcher set → "unwatched". -/
theorem movie_status_cases (movieUser : Option String)
    (watchers : List String) (u : String) :
    (watchers ≠ [] → movieWatchStatus none watchers = "watched") ∧
    (u ≠ "" → u ∈ watchers → movieWatchStatus (some u) watchers = "watched") ∧
    (u ≠ "" → watchers ≠ [] → u ∉ watchers →
      movieWatchStatus (some u) watchers = "watched_by_other") ∧
    movieWatchStatus movieUser [] = "unwatched" := by
  refine ⟨?_, ?_, ?_, ?_⟩
  · intro hne
    simp [movieWatchStatus, truthyStr, hne]
  · intro hu hmem
    have hne : watchers ≠ [] := by
      intro h; subst h; exact absurd hmem (List.not_mem_nil u)
    simp [movieWatchStatus, truthyStr, hne, hu, hmem]
  · intro hu hne hmem
    simp [movieWatchStatus, truthyStr, hne, hu, hmem]
  · simp [movieWatchStatus]

/-- Witness for movie_status_cases at concrete inputs. -/
theorem movie_status_cases_witness :
    movieWatchStatus none ["bob"] = "watched" ∧
    movieWatchStatus (some "alice") ["bob", "alice"] = "watched" ∧
    movieWatchStatus (some "alice") ["bob"] = "watched_by_other" ∧
    movieWatchStatus (some "carol") [] = "unwatched" :=
  ⟨(movie_status_cases none ["bob"] "x").1 (by decide),
   (movie_status_cases (some "alice") ["bob", "alice"] "alice").2.1 (by decide)
     (by decide),
   (movie_status_cases (some "alice") ["bob"] "alice").2.2.1 (by decide)
     (by decide) (by decide),
   (movie_status_cases (some "carol") [] "x").2.2.2⟩

/-- The example scenario of the spec, embedded: movie "Dune" requested by
alice, watched by alice 75 days ago and by bob 10 days ago. -/
def duneNow : Int := 1700000000

def duneRawMovies : List RawMovie := [⟨1, "Dune", some "tt1160419", [7], true⟩]

def duneTagLookup : Nat → Except Unit Tag := fun _ => .ok ⟨some "100 - alice"⟩

def dunePattern : String → Option String :=
  fun label => if label = "100 - alice" then some "alice" else none

def duneHist : List MovieHistRecord :=
  [⟨some 10, "alice", some (duneNow - 75 * 86400)⟩,
   ⟨some 10, "bob", some (duneNow - 10 * 86400)⟩]

def duneRatingToImdb : Int → Option String :=
  fun ratingKey => if ratingKey = 10 then some "tt1160419" else none

/-- C1 counterexample: in the spec's own example (requested and watched by
alice 75 days ago, watched by bob 10 days ago, threshold 60) the movie is
NOT in get_movies_ready_for_removal: the filter uses days_since_watched,
which is derived from the most recent watch by ANY watcher (here bob, 10
days), even though the movie's status is "watched" and alice's own watch is
75 ≥ 60 days old. This refutes the claim that eligibility uses the
requester's own most recent watch. -/
theorem movie_removal_uses_any_watcher_cex :
    get_movies_ready_for_removal duneRawMovies duneTagLookup dunePattern
      duneHist duneRatingToImdb duneNow 60 = [] ∧
    (get_movies_with_watch_status duneRawMovies duneTagLookup dunePattern
        duneHist duneRatingToImdb false none duneNow).map
      (fun m => (m.watch_status, m.days_since_watched)) =
      [("watched", some 10)] ∧
    Int.fdiv (duneNow - (duneNow - 75 * 86400)) 86400 = 75 ∧
    (60 : Int) ≤ 75 := by
  refine ⟨by decide, by decide, by decide, by decide⟩

theorem alookup_aset_self {α β : Type} [DecidableEq α]
    (l : List (α × β)) (k : α) (v : β) : alookup (aset l k v) k = some v := by
  induction l with
  | nil => simp [aset, alookup]
  | cons p t ih =>
    obtain ⟨k₁, v₁⟩ := p
    by_cases h : k₁ = k
    · simp [aset, alookup, h]
    · simp [aset, alookup, h, ih]

theorem alookup_aset_ne {α β : Type} [DecidableEq α]
    (l : List (α × β)) (k j : α) (v : β) (h : k ≠ j) :
    alookup (aset l k v) j = alookup l j := by
  induction l with
  | nil => simp [aset, alookup, h]
  | cons p t ih =>
    obtain ⟨k₁, v₁⟩ := p
    by_cases h₁ : k₁ = k
    · subst h₁; simp [aset, alookup, h]
    · simp [aset, alookup, h₁, ih]

theorem alookup_eq_none_iff {α β : Type} [DecidableEq α]
    (l : List (α × β)) (k : α) :
    alookup l k = none ↔ k ∉ l.map Prod.fst := by
  induction l with
  | nil => simp [alookup]
  | cons p t ih =>
    obtain ⟨k₁, v₁⟩ := p
    by_cases h : k₁ = k
    · subst h; simp [alookup]
    · simp [alookup, h, ih, Ne.symm h]

theorem alookup_updateWatcher_self (w : List (String × Int)) (u : String)
    (ts : Int) :
    alookup (updateWatcher w u ts) u =
      some (match alookup w u with
            | none => ts
            | some old => max old ts) := by
  unfold updateWatcher
  cases h : alookup w u with
  | none => simp [alookup_aset_self]
  | some old =>
    by_cases hgt : ts > old
    · simp [hgt, alookup_aset_self, max_eq_right (le_of_lt hgt)]
    · simp [hgt, h, max_eq_left (not_lt.mp hgt)]

theorem alookup_updateWatcher_ne (w : List (String × Int)) (u j : String)
    (ts : Int) (h : u ≠ j) :
    alookup (updateWatcher w u ts) j = alookup w j := by
  unfold updateWatcher
  cases alookup w u with
  | none => exact alookup_aset_ne w u j ts h
  | some old =>
    by_cases hgt : ts > old
    · simp [hgt, alookup_aset_ne w u j ts h]
    · simp [hgt]

/-- Timestamps of the events of one watcher, in input order. -/
def userTimestamps (evts : List (String × Int)) (u : String) : List Int :=
  evts.filterMap (fun e => if e.1 = u then some e.2 else none)

/-- Maximum of an integer list, `none` when empty. -/
def listMax : List Int → Option Int
  | [] => none
  | t :: rest => some (rest.foldl max t)

/-- Folding the per-watcher update over an event list starting from a maximum
accumulator. -/
def oMaxFold (o : Option Int) (l : List Int) : Option Int :=
  l.foldl (fun acc x =>
    some (match acc with
          | none => x
          | some m => max m x)) o

theorem oMaxFold_some (t : Int) (l : List Int) :
    oMaxFold (some t) l = some (l.foldl max t) := by
  induction l generalizing t with
  | nil => rfl
  | cons x rest ih => simpa [oMaxFold, List.foldl_cons] using ih (max t x)

theorem oMaxFold_none (l : List Int) : oMaxFold none l = listMax l := by
  cases l with
  | nil => rfl
  | cons x rest => simpa [oMaxFold, List.foldl_cons, listMax] using oMaxFold_some x rest

theorem listMax_mem (l : List Int) (T : Int) (h : listMax l = some T) : T ∈ l := by
  cases l with
  | nil => simp [listMax] at h
  | cons x rest =>
    simp only [listMax, Option.some.injEq] at h
    subst h
    have : rest.foldl max x = x ∨ rest.foldl max x ∈ rest := by
      induction rest generalizing x with
      | nil => exact Or.inl rfl
      | cons y t ih =>
        rcases ih (max x y) with h₁ | h₁
        · rcases max_choice x y with h₂ | h₂
          · exact Or.inl (by rw [List.foldl_cons, h₁, h₂])
          · exact Or.inr (by rw [List.foldl_cons, h₁, h₂]; exact List.mem_cons_self _ _)
        · exact Or.inr (List.mem_cons_of_mem _ h₁)
    rcases this with h₁ | h₁
    · rw [h₁]; exact List.mem_cons_self _ _
    · exact List.mem_cons_of_mem _ h₁

theorem userTimestamps_eq_nil_iff (evts : List (String × Int)) (u : String) :
    userTimestamps evts u = [] ↔ u ∉ evts.map Prod.fst := by
  induction evts with
  | nil => simp [userTimestamps]
  | cons e rest ih =>
    by_cases h : e.1 = u
    · simp [userTimestamps, h]
    · simp [userTimestamps, h, Ne.symm h]
      simpa [userTimestamps] using ih

theorem alookup_foldl_updateWatcher (evts : List (String × Int))
    (w₀ : List (String × Int)) (u : String) :
    alookup (evts.foldl (fun w e => updateWatcher w e.1 e.2) w₀) u =
      oMaxFold (alookup w₀ u) (userTimestamps evts u) := by
  induction evts generalizing w₀ with
  | nil => rfl
  | cons e rest ih =>
    rw [List.foldl_cons]
    by_cases h : e.1 = u
    · rw [ih, h, alookup_updateWatcher_self]
      have hu : userTimestamps (e :: rest) u = e.2 :: userTimestamps rest u := by
        simp [userTimestamps, h]
      rw [hu]
      cases alookup w₀ u <;> simp [oMaxFold, List.foldl_cons]
    · rw [ih, alookup_updateWatcher_ne _ _ _ _ h]
      have hu : userTimestamps (e :: rest) u = userTimestamps rest u := by
        simp [userTimestamps, h]
      rw [hu]

/-- The admitted movie watch events (watcher, timestamp) for one IMDB id, in
input order: exactly the records passing the guards of
prunarr/prunarr.py:210-213. -/
def admittedMovieEvents (ratingToImdb : Int → Option String)
    (hist : List MovieHistRecord) (imdbId : String) : List (String × Int) :=
  hist.filterMap (fun r =>
    match movieEventOf ratingToImdb r with
    | some (i, u, ts) => if i = imdbId then some (u, ts) else none
    | none => none)

/-- Per-key semantics of one admitted movie event applied to an optional
index entry. -/
def applyMovieEvent (entry : Option MovieWatchInfo) (e : String × Int) :
    Option MovieWatchInfo :=
  let info := entry.getD ⟨[], e.2⟩
  some ⟨updateWatcher info.watchers e.1 e.2,
    if e.2 > info.most_recent_watch then e.2 else info.most_recent_watch⟩

theorem movieLookup_foldl (ratingToImdb : Int → Option String)
    (hist : List MovieHistRecord) (acc : List (String × MovieWatchInfo))
    (i : String) :
    alookup (hist.foldl (movieHistStep ratingToImdb) acc) i =
      (admittedMovieEvents ratingToImdb hist i).foldl applyMovieEvent
        (alookup acc i) := by
  induction hist generalizing acc with
  | nil => rfl
  | cons r rest ih =>
    rw [List.foldl_cons]
    cases hev : movieEventOf ratingToImdb r with
    | none =>
      have hstep : movieHistStep ratingToImdb acc r = acc := by
        unfold movieHistStep; rw [hev]
      have hadm : admittedMovieEvents ratingToImdb (r :: rest) i =
          admittedMovieEvents ratingToImdb rest i := by
        unfold admittedMovieEvents
        rw [List.filterMap_cons]
        simp [hev]
      rw [hstep, hadm, ih]
    | some evt =>
      obtain ⟨j, u, ts⟩ := evt
      have hstep : movieHistStep ratingToImdb acc r =
          aset acc j ⟨updateWatcher ((alookup acc j).getD ⟨[], ts⟩).watchers u ts,
            if ts > ((alookup acc j).getD ⟨[], ts⟩).most_recent_watch then ts
            else ((alookup acc j).getD ⟨[], ts⟩).most_recent_watch⟩ := by
        unfold movieHistStep; rw [hev]
      by_cases hj : j = i
      · subst hj
        have hadm : admittedMovieEvents ratingToImdb (r :: rest) j =
            (u, ts) :: admittedMovieEvents ratingToImdb rest j := by
          unfold admittedMovieEvents
          rw [List.filterMap_cons]
          simp [hev]
        rw [hstep, hadm, List.foldl_cons, ih, alookup_aset_self]
        rfl
      · have hadm : admittedMovieEvents ratingToImdb (r :: rest) i =
            admittedMovieEvents ratingToImdb rest i := by
          unfold admittedMovieEvents
          rw [List.filterMap_cons]
          simp [hev, hj]
        rw [hstep, hadm, ih, alookup_aset_ne _ _ _ _ hj]

theorem foldl_applyMovieEvent_some (evts : List (String × Int))
    (info : MovieWatchInfo) :
    evts.foldl applyMovieEvent (some info) =
      some ⟨evts.foldl (fun w e => updateWatcher w e.1 e.2) info.watchers,
        evts.foldl (fun m e => if e.2 > m then e.2 else m)
          info.most_recent_watch⟩ := by
  induction evts generalizing info with
  | nil => rfl
  | cons e rest ih =>
    rw [List.foldl_cons]
    have : applyMovieEvent (some info) e =
        some ⟨updateWatcher info.watchers e.1 e.2,
          if e.2 > info.most_recent_watch then e.2
          else info.most_recent_watch⟩ := rfl
    rw [this, ih, List.foldl_cons, List.foldl_cons]

theorem foldl_if_gt_eq_max (l : List Int) (t : Int) :
    l.foldl (fun m x => if x > m then x else m) t = l.foldl max t := by
  induction l generalizing t with
  | nil => rfl
  | cons x rest ih =>
    rw [List.foldl_cons, List.foldl_cons, ih]
    congr 1
    by_cases h : x > t
    · simp [h, max_eq_right (le_of_lt h)]
    · simp [h, max_eq_left (not_lt.mp h)]

/-- The stored per-watcher timestamp of the movie watch index. -/
def movieWatcherTimestamp (lookup : List (String × MovieWatchInfo))
    (imdbId : String) (u : String) : Option Int :=
  (alookup lookup imdbId).bind (fun info => alookup info.watchers u)

/-- The stored item-wide most recent watch of the movie watch index. -/
def movieMostRecent (lookup : List (String × MovieWatchInfo))
    (imdbId : String) : Option Int :=
  (alookup lookup imdbId).map (·.most_recent_watch)

theorem movie_lookup_watcher_max (ratingToImdb : Int → Option String)
    (hist : List MovieHistRecord) (i : String) (u : String) :
    movieWatcherTimestamp (buildMovieWatchLookup ratingToImdb hist) i u =
      listMax (userTimestamps (admittedMovieEvents ratingToImdb hist i) u) := by
  unfold movieWatcherTimestamp buildMovieWatchLookup
  rw [movieLookup_foldl]
  have hnil : alookup ([] : List (String × MovieWatchInfo)) i = none := rfl
  rw [hnil]
  cases hadm : admittedMovieEvents ratingToImdb hist i with
  | nil => simp [userTimestamps, listMax]
  | cons e rest =>
    rw [List.foldl_cons]
    have h₀ : applyMovieEvent none e = some ⟨[(e.1, e.2)], e.2⟩ := by
      unfold applyMovieEvent updateWatcher
      simp [alookup, aset]
    rw [h₀, foldl_applyMovieEvent_some]
    have h₁ : alookup [(e.1, e.2)] u = if e.1 = u then some e.2 else none := by
      simp [alookup]
    simp only [Option.some_bind]
    rw [alookup_foldl_updateWatcher rest [(e.1, e.2)] u, h₁]
    by_cases h : e.1 = u
    · rw [if_pos h]
      have hu : userTimestamps (e :: rest) u = e.2 :: userTimestamps rest u := by
        simp [userTimestamps, h]
      rw [hu, oMaxFold_some]
      rfl
    · rw [if_neg h]
      have hu : userTimestamps (e :: rest) u = userTimestamps rest u := by
        simp [userTimestamps, h]
      rw [hu, oMaxFold_none]

theorem movie_lookup_most_recent (ratingToImdb : Int → Option String)
    (hist : List MovieHistRecord) (i : String) :
    movieMostRecent (buildMovieWatchLookup ratingToImdb hist) i =
      listMax ((admittedMovieEvents ratingToImdb hist i).map Prod.snd) := by
  unfold movieMostRecent buildMovieWatchLookup
  rw [movieLookup_foldl]
  have hnil : alookup ([] : List (String × MovieWatchInfo)) i = none := rfl
  rw [hnil]
  cases hadm : admittedMovieEvents ratingToImdb hist i with
  | nil => rfl
  | cons e rest =>
    rw [List.foldl_cons]
    have h₀ : applyMovieEvent none e = some ⟨[(e.1, e.2)], e.2⟩ := by
      unfold applyMovieEvent updateWatcher
      simp [alookup, aset]
    rw [h₀, foldl_applyMovieEvent_some]
    simp only [Option.map_some]
    have hmr : rest.foldl (fun m e => if e.2 > m then e.2 else m) e.2 =
        (rest.map Prod.snd).foldl max e.2 := by
      rw [List.foldl_map]
      refine List.foldl_ext _ _ _ (fun m p _ => ?_)
      by_cases h : p.2 > m
      · simp [h, max_eq_right (le_of_lt h)]
      · simp [h, max_eq_left (not_lt.mp h)]
    simp [listMax, hmr]

/-- A completed-episode watch record as produced by
TautulliAPI.get_episode_completed_history: season ("parent_media_index"),
episode ("media_index") and timestamp ("date") may be missing; the watcher is
the `friendly_name`. -/
structure EpisodeHistRecord where
  grandparent_rating_key : Option Int
  season_num : Option Int
  episode_num : Option Int
  user : String
  watched_at : Option Int
deriving DecidableEq

/-- Admission test of one episode history record
(prunarr/prunarr.py:453-466): a truthy grandparent rating key with a truthy
TVDB cache hit, and `all([season_num, episode_num, user, watched_at])` under
Python truthiness — so a season or episode number 0, an empty username or a
zero timestamp is treated as missing data and dropped. The "sNeM" episode-key
string is modelled as the pair (season, episode); the string format is
injective on integers, so this is a faithful renaming of the keys. -/
def episodeEventOf (cache : Int → Option String) (r : EpisodeHistRecord) :
    Option (String × (Int × Int) × String × Int) :=
  match r.grandparent_rating_key with
  | none => none
  | some grandparentKey =>
    if grandparentKey = 0 then none
    else
      match cache grandparentKey with
      | none => none
      | some tvdbId =>
        if tvdbId = "" then none
        else
          match r.season_num, r.episode_num, r.watched_at with
          | some s, some e, some ts =>
            if s = 0 ∨ e = 0 ∨ r.user = "" ∨ ts = 0 then none
            else some (tvdbId, (s, e), r.user, ts)
          | _, _, _ => none

/-- The episode watch lookup: tvdb id → episode key → watcher → most recent
timestamp (prunarr/prunarr.py:450-482). -/
def episodeHistStep (cache : Int → Option String)
    (acc : List (String × List ((Int × Int) × List (String × Int))))
    (r : EpisodeHistRecord) :
    List (String × List ((Int × Int) × List (String × Int))) :=
  match episodeEventOf cache r with
  | none => acc
  | some (tvdbId, key, u, ts) =>
    let seriesMap := (alookup acc tvdbId).getD []
    let userMap := (alookup seriesMap key).getD []
    aset acc tvdbId (aset seriesMap key (updateWatcher userMap u ts))

/-- The episode watch lookup of PrunArr.get_series_with_watch_status
(prunarr/prunarr.py:450-482). -/
def buildEpisodeWatchLookup (cache : Int → Option String)
    (hist : List EpisodeHistRecord) :
    List (String × List ((Int × Int) × List (String × Int))) :=
  hist.foldl (episodeHistStep cache) []

/-- The admitted episode watch events (watcher, timestamp) for one
(tvdb id, episode key), in input order. -/
def admittedEpisodeEvents (cache : Int → Option String)
    (hist : List EpisodeHistRecord) (tvdbId : String) (key : Int × Int) :
    List (String × Int) :=
  hist.filterMap (fun r =>
    match episodeEventOf cache r with
    | some (t, k, u, ts) =>
      if t = tvdbId ∧ k = key then some (u, ts) else none
    | none => none)

/-- The stored watcher map of the episode watch index for one episode. -/
def episodeWatchersOf
    (lookup : List (String × List ((Int × Int) × List (String × Int))))
    (tvdbId : String) (key : Int × Int) : List (String × Int) :=
  (alookup ((alookup lookup tvdbId).getD []) key).getD []

theorem episodeLookup_foldl (cache : Int → Option String)
    (hist : List EpisodeHistRecord)
    (acc : List (String × List ((Int × Int) × List (String × Int))))
    (tvdbId : String) (key : Int × Int) :
    episodeWatchersOf (hist.foldl (episodeHistStep cache) acc) tvdbId key =
      (admittedEpisodeEvents cache hist tvdbId key).foldl
        (fun w e => updateWatcher w e.1 e.2)
        (episodeWatchersOf acc tvdbId key) := by
  induction hist generalizing acc with
  | nil => rfl
  | cons r rest ih =>
    rw [List.foldl_cons]
    cases hev : episodeEventOf cache r with
    | none =>
      have hstep : episodeHistStep cache acc r = acc := by
        unfold episodeHistStep; rw [hev]
      have hadm : admittedEpisodeEvents cache (r :: rest) tvdbId key =
          admittedEpisodeEvents cache rest tvdbId key := by
        unfold admittedEpisodeEvents
        rw [List.filterMap_cons]
        simp [hev]
      rw [hstep, hadm, ih]
    | some evt =>
      obtain ⟨t, k, u, ts⟩ := evt
      have hstep : episodeHistStep cache acc r =
          aset acc t (aset ((alookup acc t).getD [])
            k (updateWatcher
              ((alookup ((alookup acc t).getD []) k).getD []) u ts)) := by
        unfold episodeHistStep; rw [hev]
      by_cases ht : t = tvdbId
      · subst ht
        by_cases hk : k = key
        · subst hk
          have hadm : admittedEpisodeEvents cache (r :: rest) t k =
              (u, ts) :: admittedEpisodeEvents cache rest t k := by
            unfold admittedEpisodeEvents
            rw [List.filterMap_cons]
            simp [hev]
          rw [hstep, hadm, List.foldl_cons, ih]
          unfold episodeWatchersOf
          rw [alookup_aset_self, Option.getD_some, alookup_aset_self,
            Option.getD_some]
        · have hadm : admittedEpisodeEvents cache (r :: rest) t key =
              admittedEpisodeEvents cache rest t key := by
            unfold admittedEpisodeEvents
            rw [List.filterMap_cons]
            simp [hev, hk]
          rw [hstep, hadm, ih]
          unfold episodeWatchersOf
          rw [alookup_aset_self, Option.getD_some,
            alookup_aset_ne _ _ _ _ hk]
      · have hadm : admittedEpisodeEvents cache (r :: rest) tvdbId key =
            admittedEpisodeEvents cache rest tvdbId key := by
          unfold admittedEpisodeEvents
          rw [List.filterMap_cons]
          simp [hev, ht]
        rw [hstep, hadm, ih]
        unfold episodeWatchersOf
        rw [alookup_aset_ne _ _ _ _ ht]

/-- The stored per-watcher timestamp of the episode watch index. -/
def episodeWatcherTimestamp
    (lookup : List (String × List ((Int × Int) × List (String × Int))))
    (tvdbId : String) (key : Int × Int) (u : String) : Option Int :=
  alookup (episodeWatchersOf lookup tvdbId key) u

theorem episode_lookup_watcher_max (cache : Int → Option String)
    (hist : List EpisodeHistRecord) (tvdbId : String) (key : Int × Int)
    (u : String) :
    episodeWatcherTimestamp (buildEpisodeWatchLookup cache hist) tvdbId key u =
      listMax (userTimestamps
        (admittedEpisodeEvents cache hist tvdbId key) u) := by
  unfold episodeWatcherTimestamp buildEpisodeWatchLookup
  rw [episodeLookup_foldl]
  have h₀ : episodeWatchersOf [] tvdbId key = [] := rfl
  rw [h₀, alookup_foldl_updateWatcher]
  have h₁ : alookup ([] : List (String × Int)) u = none := rfl
  rw [h₁, oMaxFold_none]

/-- C8: max-timestamp retention. For every history and every
(item, watcher) pair, the movie index stores as the watcher's timestamp the
maximum over that watcher's admitted events (hence for two events T1 < T2,
in either input order, it records T2 and never T1); the movie index's
item-wide most_recent_watch is the maximum timestamp over all watchers of
that item; and the episode index stores the per-watcher maximum for every
(tvdb id, episode key, watcher). -/
theorem watch_index_max_retention :
    (∀ (ratingToImdb : Int → Option String) (hist : List MovieHistRecord)
        (i u : String),
      movieWatcherTimestamp (buildMovieWatchLookup ratingToImdb hist) i u =
        listMax (userTimestamps (admittedMovieEvents ratingToImdb hist i) u)) ∧
    (∀ (ratingToImdb : Int → Option String) (hist : List MovieHistRecord)
        (i : String),
      movieMostRecent (buildMovieWatchLookup ratingToImdb hist) i =
        listMax ((admittedMovieEvents ratingToImdb hist i).map Prod.snd)) ∧
    (∀ (cache : Int → Option String) (hist : List EpisodeHistRecord)
        (tvdbId : String) (key : Int × Int) (u : String),
      episodeWatcherTimestamp (buildEpisodeWatchLookup cache hist) tvdbId key u =
        listMax (userTimestamps
          (admittedEpisodeEvents cache hist tvdbId key) u)) ∧
    (∀ (ratingToImdb : Int → Option String) (hist : List MovieHistRecord)
        (i u : String) (T₁ T₂ : Int), T₁ < T₂ →
      (userTimestamps (admittedMovieEvents ratingToImdb hist i) u = [T₁, T₂] ∨
       userTimestamps (admittedMovieEvents ratingToImdb hist i) u = [T₂, T₁]) →
      movieWatcherTimestamp (buildMovieWatchLookup ratingToImdb hist) i u =
        some T₂) := by
  refine ⟨movie_lookup_watcher_max, movie_lookup_most_recent,
    episode_lookup_watcher_max, ?_⟩
  intro ratingToImdb hist i u T₁ T₂ hlt hevts
  rw [movie_lookup_watcher_max]
  rcases hevts with h | h
  · rw [h]
    simp [listMax, max_eq_right (le_of_lt hlt)]
  · rw [h]
    simp [listMax, max_eq_left (le_of_lt hlt)]

/-- Concrete history used to witness max-timestamp retention: alice watches
the same movie twice (timestamps 100 then 300, reported newest-event-first),
bob watches it once in between. -/
def retentionHist : List MovieHistRecord :=
  [⟨some 4, "alice", some 300⟩, ⟨some 4, "bob", some 200⟩,
   ⟨some 4, "alice", some 100⟩]

def retentionRatingToImdb : Int → Option String :=
  fun ratingKey => if ratingKey = 4 then some "tt0000004" else none

/-- Witness for watch_index_max_retention at a concrete history. -/
theorem watch_index_max_retention_witness :
    movieWatcherTimestamp
      (buildMovieWatchLookup retentionRatingToImdb retentionHist)
      "tt0000004" "alice" = some 300 :=
  watch_index_max_retention.2.2.2 retentionRatingToImdb retentionHist
    "tt0000004" "alice" 100 300 (by decide) (Or.inr (by decide))


theorem listMax_eq_none_iff (l : List Int) : listMax l = none ↔ l = [] := by
  cases l <;> simp [listMax]

theorem get_all_radarr_movies_user_truthy (movies : List RawMovie)
    (tagLookup : Nat → Except Unit Tag) (pattern : String → Option String)
    (m : MovieRec)
    (hm : m ∈ get_all_radarr_movies movies tagLookup pattern false) :
    truthyStr m.user := by
  unfold get_all_radarr_movies at hm
  rw [List.mem_filterMap] at hm
  obtain ⟨movie, _, heq⟩ := hm
  by_cases hf : movie.hasFile
  · simp only [hf, Bool.not_true, Bool.false_eq_true, if_false] at heq
    by_cases ht : truthyStr (if movie.tags ≠ [] then
        get_user_tags tagLookup pattern movie.tags else none)
    · rw [if_neg (fun h => h.2 ht)] at heq
      obtain rfl := Option.some.inj heq
      exact ht
    · rw [if_pos ⟨not_false, ht⟩] at heq
      exact absurd heq (by simp)
  · simp only [Bool.not_eq_true] at hf
    simp [hf] at heq

theorem admittedMovieEvents_ts_ne_zero (ratingToImdb : Int → Option String)
    (hist : List MovieHistRecord) (i : String) :
    ∀ e ∈ admittedMovieEvents ratingToImdb hist i, e.2 ≠ 0 := by
  intro e he
  unfold admittedMovieEvents at he
  rw [List.mem_filterMap] at he
  obtain ⟨r, _, heq⟩ := he
  cases hev : movieEventOf ratingToImdb r with
  | none => rw [hev] at heq; simp at heq
  | some evt =>
    obtain ⟨j, u, ts⟩ := evt
    rw [hev] at heq
    have hts : ts ≠ 0 := by
      clear heq
      unfold movieEventOf at hev
      repeat' split at hev
      all_goals simp_all
    by_cases hj : j = i
    · simp only [hj, if_true] at heq
      obtain rfl := Option.some.inj heq
      exact hts
    · simp [hj] at heq

/-- C1 (amended): for every movie with a resolved requester (the output of
get_all_radarr_movies with untagged excluded) and IMDB id `i`, the movie is
in get_movies_ready_for_removal(daysWatched) if and only if its requester has
some fully-watched event for it AND at least `daysWatched` days have passed
since the most recent watch by ANY watcher of the movie — not since the
requester's own most recent watch. Watch events by other users therefore DO
affect eligibility, and the spec's "Dune" scenario (requester 75 days ago,
another user 10 days ago, threshold 60) is not eligible. -/
theorem movie_removal_iff (movies : List RawMovie)
    (tagLookup : Nat → Except Unit Tag) (pattern : String → Option String)
    (hist : List MovieHistRecord) (ratingToImdb : Int → Option String)
    (now daysWatched : Int) (m : MovieRec) (i : String)
    (hm : m ∈ get_all_radarr_movies movies tagLookup pattern false)
    (hi : m.imdb_id = some i) :
    annotateMovie (buildMovieWatchLookup ratingToImdb hist) now m ∈
        get_movies_ready_for_removal movies tagLookup pattern hist ratingToImdb
          now daysWatched ↔
      (m.user.getD "" ∈ (admittedMovieEvents ratingToImdb hist i).map Prod.fst ∧
       ∃ T, listMax ((admittedMovieEvents ratingToImdb hist i).map Prod.snd) =
          some T ∧ daysWatched ≤ Int.fdiv (now - T) 86400) := by
  have hfalse : ¬ truthyStr (none : Option String) := by simp [truthyStr]
  have hready : get_movies_ready_for_removal movies tagLookup pattern hist
      ratingToImdb now daysWatched =
      ((get_all_radarr_movies movies tagLookup pattern false).map
        (annotateMovie (buildMovieWatchLookup ratingToImdb hist) now)).filter
        (movieRemovalCheck daysWatched) := by
    unfold get_movies_ready_for_removal get_movies_with_watch_status
    simp only [if_neg hfalse]
  rw [hready]
  have hmem : annotateMovie (buildMovieWatchLookup ratingToImdb hist) now m ∈
      (get_all_radarr_movies movies tagLookup pattern false).map
        (annotateMovie (buildMovieWatchLookup ratingToImdb hist) now) :=
    List.mem_map_of_mem _ hm
  rw [List.mem_filter]
  simp only [hmem, true_and]
  have hu : truthyStr m.user :=
    get_all_radarr_movies_user_truthy movies tagLookup pattern m hm
  have humax := movie_lookup_watcher_max ratingToImdb hist i (m.user.getD "")
  have hmrmax := movie_lookup_most_recent ratingToImdb hist i
  cases hentry : alookup (buildMovieWatchLookup ratingToImdb hist) i with
  | none =>
    have hadm : admittedMovieEvents ratingToImdb hist i = [] := by
      unfold movieMostRecent at hmrmax
      rw [hentry] at hmrmax
      have := (listMax_eq_none_iff _).mp hmrmax.symm
      simpa using this
    have hstat : (annotateMovie (buildMovieWatchLookup ratingToImdb hist) now
        m).watch_status = "unwatched" := by
      unfold annotateMovie
      rw [hi]
      simp only [Option.some_bind, hentry]
      simp [movieWatchStatus]
    constructor
    · intro hchk
      unfold movieRemovalCheck at hchk
      rw [hstat] at hchk
      simp at hchk
    · intro hrhs
      rw [hadm] at hrhs
      simp at hrhs
  | some info =>
    have hwi : (annotateMovie (buildMovieWatchLookup ratingToImdb hist) now
        m).watch_status =
        movieWatchStatus m.user (info.watchers.map Prod.fst) := by
      unfold annotateMovie
      rw [hi]
      simp only [Option.some_bind, hentry]
      rfl
    have hmr : some info.most_recent_watch =
        listMax ((admittedMovieEvents ratingToImdb hist i).map Prod.snd) := by
      unfold movieMostRecent at hmrmax
      rw [hentry] at hmrmax
      simpa using hmrmax
    have hmrne : info.most_recent_watch ≠ 0 := by
      have hTmem := listMax_mem _ _ hmr.symm
      rw [List.mem_map] at hTmem
      obtain ⟨e, he, heq⟩ := hTmem
      rw [← heq]
      exact admittedMovieEvents_ts_ne_zero ratingToImdb hist i e he
    have hdays : (annotateMovie (buildMovieWatchLookup ratingToImdb hist) now
        m).days_since_watched =
        some (Int.fdiv (now - info.most_recent_watch) 86400) := by
      unfold annotateMovie
      rw [hi]
      simp only [Option.some_bind, hentry]
      simp [hmrne]
    have hwt : alookup info.watchers (m.user.getD "") =
        listMax (userTimestamps (admittedMovieEvents ratingToImdb hist i)
          (m.user.getD "")) := by
      unfold movieWatcherTimestamp at humax
      rw [hentry] at humax
      simpa using humax
    have hstatiff : movieWatchStatus m.user (info.watchers.map Prod.fst) =
        "watched" ↔
        m.user.getD "" ∈
          (admittedMovieEvents ratingToImdb hist i).map Prod.fst := by
      have hkey : m.user.getD "" ∈ info.watchers.map Prod.fst ↔
          m.user.getD "" ∈
            (admittedMovieEvents ratingToImdb hist i).map Prod.fst := by
        rw [← not_iff_not, ← alookup_eq_none_iff, hwt,
          ← userTimestamps_eq_nil_iff, ← listMax_eq_none_iff]
      by_cases hnil : info.watchers.map Prod.fst = []
      · rw [hnil] at hkey
        rw [← hkey]
        simp [movieWatchStatus, hnil]
      · by_cases hin : m.user.getD "" ∈ info.watchers.map Prod.fst
        · rw [← hkey]
          have h₂ : truthyStr m.user ∧
              m.user.getD "" ∈ info.watchers.map Prod.fst := ⟨hu, hin⟩
          simp only [movieWatchStatus, if_neg hnil, if_pos h₂]
          simp [hin]
        · rw [← hkey]
          have h₂ : ¬(truthyStr m.user ∧
              m.user.getD "" ∈ info.watchers.map Prod.fst) := fun h => hin h.2
          have h₃ : truthyStr m.user ∧
              m.user.getD "" ∉ info.watchers.map Prod.fst := ⟨hu, hin⟩
          simp only [movieWatchStatus, if_neg hnil, if_neg h₂, if_pos h₃]
          simp [hin]
    constructor
    · intro hchk
      unfold movieRemovalCheck at hchk
      rw [hwi, hdays] at hchk
      simp only [Bool.and_eq_true, beq_iff_eq, decide_eq_true_eq] at hchk
      exact ⟨hstatiff.mp hchk.1, info.most_recent_watch, hmr.symm, hchk.2⟩
    · intro hrhs
      obtain ⟨hin, T, hT, hd⟩ := hrhs
      unfold movieRemovalCheck
      rw [hwi, hdays]
      have hTeq : T = info.most_recent_watch :=
        (Option.some.inj (hmr.trans hT)).symm
      subst hTeq
      simp only [Bool.and_eq_true, beq_iff_eq, decide_eq_true_eq]
      exact ⟨hstatiff.mpr hin, hd⟩

/-- Witness for movie_removal_iff at the spec's Dune scenario. -/
theorem movie_removal_iff_witness :
    (annotateMovie (buildMovieWatchLookup duneRatingToImdb duneHist) duneNow
        ⟨1, "Dune", some "tt1160419", some "alice", [7]⟩ ∈
        get_movies_ready_for_removal duneRawMovies duneTagLookup dunePattern
          duneHist duneRatingToImdb duneNow 60) ↔
      ("alice" ∈
        (admittedMovieEvents duneRatingToImdb duneHist "tt1160419").map
          Prod.fst ∧
       ∃ T, listMax ((admittedMovieEvents duneRatingToImdb duneHist
            "tt1160419").map Prod.snd) = some T ∧
          (60 : Int) ≤ Int.fdiv (duneNow - T) 86400) :=
  movie_removal_iff duneRawMovies duneTagLookup dunePattern duneHist
    duneRatingToImdb duneNow 60 ⟨1, "Dune", some "tt1160419", some "alice", [7]⟩
    "tt1160419" (by decide) (by decide)

/-- Sonarr per-season statistics as read by the engine. -/
structure SeasonStats where
  sizeOnDisk : Int
deriving DecidableEq

/-- A Sonarr season entry of a raw series. -/
structure RawSeason where
  seasonNumber : Int
  totalEpisodeCount : Int
  episodeFileCount : Int
  statistics : SeasonStats
deriving DecidableEq

/-- Sonarr series-level statistics: aired episode count and downloaded
episode-file count. -/
structure SeriesStats where
  episodeCount : Int
  episodeFileCount : Int
deriving DecidableEq

/-- A raw Sonarr series as read by the engine. -/
structure RawSeries where
  seriesId : Nat
  title : String
  tvdbId : Option Nat
  tags : List Nat
  seasons : List RawSeason
  statistics : SeriesStats
deriving DecidableEq

/-- A series enriched by PrunArr.get_all_sonarr_series
(prunarr/prunarr.py:358-404); display-only fields are omitted. -/
structure SeriesRec where
  seriesId : Nat
  title : String
  tvdb_id : Option Nat
  user : Option String
  total_episodes : Int
  downloaded_episodes : Int
  has_file : Bool
  seasons : List RawSeason
  tags : List Nat
  statistics : SeriesStats
deriving DecidableEq

/-- PrunArr.get_all_sonarr_series (prunarr/prunarr.py:358-404): resolve the
requester from tags (via the Sonarr tag lookup) and skip untagged series
(falsy username) unless `include_untagged`. -/
def get_all_sonarr_series (seriesList : List RawSeries)
    (tagLookup : Nat → Except Unit Tag) (pattern : String → Option String)
    (includeUntagged : Bool) : List SeriesRec :=
  seriesList.filterMap (fun series =>
    let username :=
      if series.tags ≠ [] then get_user_tags tagLookup pattern series.tags
      else none
    if ¬includeUntagged ∧ ¬truthyStr username then none
    else
      let totalEpisodes := (series.seasons.map (·.totalEpisodeCount)).sum
      let downloadedEpisodes := (series.seasons.map (·.episodeFileCount)).sum
      some ⟨series.seriesId, series.title, series.tvdbId, username,
        totalEpisodes, downloadedEpisodes, decide (downloadedEpisodes > 0),
        series.seasons, series.tags, series.statistics⟩)

/-- Python `str(series.get("tvdb_id", ""))` as used for the watch-lookup key
(prunarr/prunarr.py:495): the str() of a missing tvdb id is "None". -/
def tvdbKey : Option Nat → String
  | some n => toString n
  | none => "None"

/-- The season filter of the watched-episode count
(prunarr/prunarr.py:527-529): `season_filter is not None and
season_num != season_filter`. -/
def seasonFilterSkips (seasonFilter : Option Int) (seasonNum : Int) : Bool :=
  match seasonFilter with
  | some sf => decide (seasonNum ≠ sf)
  | none => false

/-- The watched-episode count of PrunArr.get_series_with_watch_status
(prunarr/prunarr.py:518-537): iterate the series' episode watch map; apply
the season filter; skip season 0 when no season filter is given; count the
episode when the (truthy) requester is among its watchers. Episode keys are
the (season, episode) pairs; parsing the "sNeM" string back never fails for
keys built from integers, so the try/except parse is the identity here. -/
def countWatchedEpisodes
    (seriesWatchInfo : List ((Int × Int) × List (String × Int)))
    (seriesUser : Option String) (seasonFilter : Option Int) : Nat :=
  seriesWatchInfo.foldl (fun count entry =>
    let seasonNum := entry.1.1
    if seasonFilterSkips seasonFilter seasonNum then count
    else if seasonFilter = none ∧ seasonNum = 0 then count
    else if truthyStr seriesUser ∧
        (alookup entry.2 (seriesUser.getD "")).isSome then count + 1
    else count) 0

/-- PrunArr series watch-status determination (prunarr/prunarr.py:564-572):
the exact if/elif/elif/else chain. -/
def seriesWatchStatus (watchedCount : Nat) (totalCount : Int) : String :=
  if totalCount = 0 then "no_episodes"
  else if watchedCount = 0 then "unwatched"
  else if (watchedCount : Int) = totalCount then "fully_watched"
  else "partially_watched"

/-- PrunArr completion percentage (prunarr/prunarr.py:598): exact rational
arithmetic models the Python float expression. -/
def completionPercentage (watchedCount : Nat) (totalCount : Int) : ℚ :=
  if totalCount > 0 then (watchedCount : ℚ) / (totalCount : ℚ) * 100 else 0

/-- The most recent watch timestamp scan (prunarr/prunarr.py:578-582):
maximum over every watcher of every episode, starting from 0, strict
comparison. -/
def seriesMostRecentTs
    (seriesWatchInfo : List ((Int × Int) × List (String × Int))) : Int :=
  seriesWatchInfo.foldl (fun acc entry =>
    entry.2.foldl (fun acc2 userWatch =>
      if userWatch.2 > acc2 then userWatch.2 else acc2) acc) 0

/-- Per-season summary read by the season removal mode
(prunarr/prunarr.py:642-651). -/
structure SeasonData where
  season_number : Int
  completion_percentage : ℚ
deriving DecidableEq

/-- A series annotated with watch status (prunarr/prunarr.py:593-603). The
output dict carries no "seasons_data" key, so the downstream
`series.get("seasons_data", [])` always yields []: the field is included and
always constructed empty. -/
structure SeriesStatusRec where
  seriesId : Nat
  title : String
  tvdb_id : Option Nat
  user : Option String
  tags : List Nat
  watch_status : String
  watched_episodes : Nat
  total_episodes : Int
  completion_percentage : ℚ
  most_recent_watch : Option Int
  days_since_watched : Option Int
  total_size_on_disk : Int
  seasons_data : List SeasonData
deriving DecidableEq

/-- Annotation of one series inside PrunArr.get_series_with_watch_status
(prunarr/prunarr.py:492-603): watched count, the episode-count fallback chain
(aired count, then watch-history count, then downloaded count), the status
state machine, completion percentage and days since the most recent watch by
any watcher. -/
def annotateSeries
    (watchLookup : List (String × List ((Int × Int) × List (String × Int))))
    (now : Int) (seasonFilter : Option Int) (series : SeriesRec) :
    SeriesStatusRec :=
  let seriesWatchInfo := (alookup watchLookup (tvdbKey series.tvdb_id)).getD []
  let totalAvailableEpisodes := series.statistics.episodeCount
  let totalDownloadedEpisodes := series.statistics.episodeFileCount
  let totalWatchedEpisodes :=
    countWatchedEpisodes seriesWatchInfo series.user seasonFilter
  let totalEpisodesInWatchHistory : Int := seriesWatchInfo.length
  let actualTotalEpisodes :=
    if totalAvailableEpisodes > 0 then totalAvailableEpisodes
    else if totalEpisodesInWatchHistory > 0 then totalEpisodesInWatchHistory
    else totalDownloadedEpisodes
  let mostRecentTs := seriesMostRecentTs seriesWatchInfo
  let mostRecentWatch :=
    if seriesWatchInfo ≠ [] ∧ mostRecentTs > 0 then some mostRecentTs else none
  let daysSince :=
    if seriesWatchInfo ≠ [] ∧ mostRecentTs > 0 then
      some (Int.fdiv (now - mostRecentTs) 86400)
    else none
  let totalSizeOnDisk := (series.seasons.map (·.statistics.sizeOnDisk)).sum
  ⟨series.seriesId, series.title, series.tvdb_id, series.user, series.tags,
    seriesWatchStatus totalWatchedEpisodes actualTotalEpisodes,
    totalWatchedEpisodes, actualTotalEpisodes,
    completionPercentage totalWatchedEpisodes actualTotalEpisodes,
    mostRecentWatch, daysSince, totalSizeOnDisk, []⟩

/-- PrunArr.get_series_with_watch_status (prunarr/prunarr.py:406-605):
build the episode watch lookup from Tautulli history and the TVDB metadata
cache, apply the (truthy) username filter, and annotate every series. The
series-title substring filter, unused by every claim, is not modelled. -/
def get_series_with_watch_status (seriesList : List RawSeries)
    (tagLookup : Nat → Except Unit Tag) (pattern : String → Option String)
    (ephist : List EpisodeHistRecord) (cache : Int → Option String)
    (includeUntagged : Bool) (usernameFilter : Option String)
    (seasonFilter : Option Int) (now : Int) : List SeriesStatusRec :=
  let allSeries := get_all_sonarr_series seriesList tagLookup pattern
    includeUntagged
  let filtered :=
    if truthyStr usernameFilter then
      allSeries.filter (fun s => s.user = usernameFilter)
    else allSeries
  let watchLookup := buildEpisodeWatchLookup cache ephist
  filtered.map (annotateSeries watchLookup now seasonFilter)

/-- The day-threshold test shared by the removal filters:
`days_since_watched is not None and days_since_watched >= days_watched`. -/
def daysCheck (daysWatched : Int) (daysSince : Option Int) : Bool :=
  match daysSince with
  | some d => decide (d ≥ daysWatched)
  | none => false

/-- An item of the series/season removal candidate list
(prunarr/prunarr.py:635-651): the annotated series plus removal_type and,
for season mode, the season number. -/
structure SeriesRemovalItem where
  series : SeriesStatusRec
  removal_type : String
  season_number : Option Int
deriving DecidableEq

/-- PrunArr.get_series_ready_for_removal (prunarr/prunarr.py:607-653):
untagged series are skipped (falsy user guard); "series" mode keeps fully
watched series whose days_since_watched is present and at least the
threshold; "season" mode scans `seasons_data` (always [] in the annotated
output) for 100%-complete seasons under the same day threshold. -/
def get_series_ready_for_removal (seriesList : List RawSeries)
    (tagLookup : Nat → Except Unit Tag) (pattern : String → Option String)
    (ephist : List EpisodeHistRecord) (cache : Int → Option String)
    (now : Int) (daysWatched : Int) (removalMode : String) :
    List SeriesRemovalItem :=
  let seriesWithStatus := get_series_with_watch_status seriesList tagLookup
    pattern ephist cache false none none now
  seriesWithStatus.flatMap (fun series =>
    if ¬truthyStr series.user then []
    else if removalMode = "series" then
      if series.watch_status = "fully_watched" ∧
          daysCheck daysWatched series.days_since_watched then
        [⟨series, "series", none⟩]
      else []
    else if removalMode = "season" then
      series.seasons_data.filterMap (fun seasonData =>
        if seasonData.completion_percentage = (100 : ℚ) ∧
            daysCheck daysWatched series.days_since_watched then
          some ⟨series, "season", some seasonData.season_number⟩
        else none)
    else [])

/-- C9: for non-negative total counts (episode counts from Sonarr statistics,
watch-history sizes or file counts are non-negative), the series watch-status
function is the exact four-way case split — "no_episodes" iff total = 0;
"unwatched" iff total > 0 and watched = 0; "fully_watched" iff
watched = total > 0; "partially_watched" otherwise — and
completion_percentage equals watched / total * 100, with value 0 when
total = 0; e.g. 4 of 10 gives "partially_watched" and completion 40. -/
theorem series_status_state_machine (watchedCount : Nat) (totalCount : Int)
    (hnn : 0 ≤ totalCount) :
    (seriesWatchStatus watchedCount totalCount = "no_episodes" ↔
      totalCount = 0) ∧
    (seriesWatchStatus watchedCount totalCount = "unwatched" ↔
      0 < totalCount ∧ watchedCount = 0) ∧
    (seriesWatchStatus watchedCount totalCount = "fully_watched" ↔
      (watchedCount : Int) = totalCount ∧ 0 < totalCount) ∧
    (seriesWatchStatus watchedCount totalCount = "partially_watched" ↔
      0 < totalCount ∧ 0 < watchedCount ∧ (watchedCount : Int) ≠ totalCount) ∧
    (totalCount = 0 → completionPercentage watchedCount totalCount = 0) ∧
    (0 < totalCount → completionPercentage watchedCount totalCount =
      (watchedCount : ℚ) / (totalCount : ℚ) * 100) ∧
    seriesWatchStatus 4 10 = "partially_watched" ∧
    completionPercentage 4 10 = 40 := by
  refine ⟨?_, ?_, ?_, ?_, ?_, ?_, by decide, by norm_num [completionPercentage]⟩
  · unfold seriesWatchStatus
    split_ifs with h0 hw heq <;> simp_all <;> omega
  · unfold seriesWatchStatus
    split_ifs with h0 hw heq <;> simp_all <;> omega
  · unfold seriesWatchStatus
    split_ifs with h0 hw heq <;> simp_all <;> omega
  · unfold seriesWatchStatus
    split_ifs with h0 hw heq <;> simp_all <;> omega
  · intro h0
    simp [completionPercentage, h0]
  · intro h0
    simp [completionPercentage, h0]

/-- Witness for series_status_state_machine at watched = 4, total = 10. -/
theorem series_status_state_machine_witness :
    seriesWatchStatus 4 10 = "partially_watched" ∧
    completionPercentage 4 10 = 40 :=
  ⟨(series_status_state_machine 4 10 (by decide)).2.2.2.2.2.2.1,
   (series_status_state_machine 4 10 (by decide)).2.2.2.2.2.2.2⟩

/-- A series with one fully-watched season-0 special: requested by alice,
season 0 episode 1 watched by alice, with complete record data. -/
def specialsNow : Int := 1700000000

def specialsRawSeries : List RawSeries :=
  [⟨1, "Show", some 55, [3], [⟨0, 2, 2, ⟨0⟩⟩], ⟨2, 2⟩⟩]

def specialsTagLookup : Nat → Except Unit Tag := fun _ => .ok ⟨some "3 - alice"⟩

def specialsPattern : String → Option String :=
  fun label => if label = "3 - alice" then some "alice" else none

def specialsEphist : List EpisodeHistRecord :=
  [⟨some 7, some 0, some 1, "alice", some (specialsNow - 100 * 86400)⟩]

def specialsCache : Int → Option String :=
  fun grandparentKey => if grandparentKey = 7 then some "55" else none

/-- C6 is a code bug: with season_filter = 0, a fully-watched season-0
episode with complete data should be counted in watched_episodes (the code's
own comment says season 0 is skipped "unless specifically requested", and
the season-filter check at prunarr/prunarr.py:527-532 was written to pass
season 0 through when the filter requests it), but the essential-data guard
`all([season_num, ...])` at prunarr/prunarr.py:464-466 treats the falsy
season number 0 as missing data and drops the record before it ever reaches
the filter: the episode watch lookup stays empty and watched_episodes is 0,
not 1. -/
theorem season_zero_events_dropped :
    buildEpisodeWatchLookup specialsCache specialsEphist = [] ∧
    (get_series_with_watch_status specialsRawSeries specialsTagLookup
        specialsPattern specialsEphist specialsCache true none (some 0)
        specialsNow).map (fun s => s.watched_episodes) = [0] := by
  exact ⟨by decide, by decide⟩

def w10lookup : Nat → Except Unit Tag := fun _ => .ok ⟨some "zzz"⟩

def w10pattern : String → Option String :=
  fun label => if label = "1 - bob" then some "bob" else none

/-- Witness for tag_resolution_first_match: a list of all-non-matching tags
resolves to none. -/
theorem tag_resolution_first_match_witness :
    get_user_tags w10lookup w10pattern [5, 6] = none :=
  (tag_resolution_first_match w10lookup w10pattern [5, 6]).2.2.2
    (fun _ _ tag htag => by
      obtain rfl := Except.ok.inj htag
      decide)

/-- Boundary scenario: one movie requested by alice with a single watch event
by alice `daysAgo` days before `now`. -/
def boundaryRawMovies : List RawMovie :=
  [⟨1, "Item", some "tt0000007", [2], true⟩]

def boundaryTagLookup : Nat → Except Unit Tag := fun _ => .ok ⟨some "2 - alice"⟩

def boundaryPattern : String → Option String :=
  fun label => if label = "2 - alice" then some "alice" else none

def boundaryMovieHist (daysAgo now : Int) : List MovieHistRecord :=
  [⟨some 5, "alice", some (now - daysAgo * 86400)⟩]

def boundaryRatingToImdb : Int → Option String :=
  fun ratingKey => if ratingKey = 5 then some "tt0000007" else none

/-- Boundary scenario: one single-episode series requested by alice, with
the episode watched by alice `daysAgo` days before `now`. -/
def boundaryRawSeries : List RawSeries :=
  [⟨1, "Show", some 9, [2], [⟨1, 1, 1, ⟨0⟩⟩], ⟨1, 1⟩⟩]

def boundaryEpHist (daysAgo now : Int) : List EpisodeHistRecord :=
  [⟨some 7, some 1, some 1, "alice", some (now - daysAgo * 86400)⟩]

def boundaryCache : Int → Option String :=
  fun grandparentKey => if grandparentKey = 7 then some "9" else none

theorem boundary_movie_eligible (d : Int) :
    (get_movies_ready_for_removal boundaryRawMovies boundaryTagLookup
        boundaryPattern (boundaryMovieHist d (86400 * d + 43200))
        boundaryRatingToImdb (86400 * d + 43200) d).map (·.movieId) = [1] := by
  have hfalse : ¬ truthyStr (none : Option String) := by simp [truthyStr]
  have hh : boundaryMovieHist d (86400 * d + 43200) =
      [⟨some 5, "alice", some 43200⟩] := by
    unfold boundaryMovieHist
    rw [show 86400 * d + 43200 - d * 86400 = 43200 by ring]
  have hlkp : buildMovieWatchLookup boundaryRatingToImdb
      [⟨some 5, "alice", some 43200⟩] =
      [("tt0000007", ⟨[("alice", 43200)], 43200⟩)] := by decide
  have hall : get_all_radarr_movies boundaryRawMovies boundaryTagLookup
      boundaryPattern false =
      [⟨1, "Item", some "tt0000007", some "alice", [2]⟩] := by decide
  have hdiv : Int.fdiv (86400 * d + 43200 - 43200) 86400 = d := by
    rw [show (86400 * d + 43200 - 43200 : Int) = d * 86400 by ring]
    exact Int.mul_fdiv_cancel d (by norm_num)
  unfold get_movies_ready_for_removal get_movies_with_watch_status
  rw [hh, hlkp, hall]
  simp only [if_neg hfalse]
  simp [annotateMovie, movieWatchStatus, truthyStr, alookup, movieRemovalCheck,
    hdiv]

theorem boundary_movie_not_eligible (d : Int) :
    get_movies_ready_for_removal boundaryRawMovies boundaryTagLookup
      boundaryPattern (boundaryMovieHist (d - 1) (86400 * d + 43200))
      boundaryRatingToImdb (86400 * d + 43200) d = [] := by
  have hfalse : ¬ truthyStr (none : Option String) := by simp [truthyStr]
  have hh : boundaryMovieHist (d - 1) (86400 * d + 43200) =
      [⟨some 5, "alice", some 129600⟩] := by
    unfold boundaryMovieHist
    rw [show 86400 * d + 43200 - (d - 1) * 86400 = 129600 by ring]
  have hlkp : buildMovieWatchLookup boundaryRatingToImdb
      [⟨some 5, "alice", some 129600⟩] =
      [("tt0000007", ⟨[("alice", 129600)], 129600⟩)] := by decide
  have hall : get_all_radarr_movies boundaryRawMovies boundaryTagLookup
      boundaryPattern false =
      [⟨1, "Item", some "tt0000007", some "alice", [2]⟩] := by decide
  have hdiv : Int.fdiv (86400 * d + 43200 - 129600) 86400 = d - 1 := by
    rw [show (86400 * d + 43200 - 129600 : Int) = (d - 1) * 86400 by ring]
    exact Int.mul_fdiv_cancel (d - 1) (by norm_num)
  unfold get_movies_ready_for_removal get_movies_with_watch_status
  rw [hh, hlkp, hall]
  simp only [if_neg hfalse]
  simp [annotateMovie, movieWatchStatus, truthyStr, alookup, movieRemovalCheck,
    hdiv]

theorem boundary_series_eligible (d : Int) :
    (get_series_ready_for_removal boundaryRawSeries boundaryTagLookup
        boundaryPattern (boundaryEpHist d (86400 * d + 43200)) boundaryCache
        (86400 * d + 43200) d "series").map
      (fun item => item.series.seriesId) = [1] := by
  have hfalse : ¬ truthyStr (none : Option String) := by simp [truthyStr]
  have hh : boundaryEpHist d (86400 * d + 43200) =
      [⟨some 7, some 1, some 1, "alice", some 43200⟩] := by
    unfold boundaryEpHist
    rw [show 86400 * d + 43200 - d * 86400 = 43200 by ring]
  have hlkp : buildEpisodeWatchLookup boundaryCache
      [⟨some 7, some 1, some 1, "alice", some 43200⟩] =
      [("9", [((1, 1), [("alice", 43200)])])] := by decide
  have hall : get_all_sonarr_series boundaryRawSeries boundaryTagLookup
      boundaryPattern false =
      [⟨1, "Show", some 9, some "alice", 1, 1, true, [⟨1, 1, 1, ⟨0⟩⟩], [2],
        ⟨1, 1⟩⟩] := by decide
  have hdiv : Int.fdiv (86400 * d + 43200 - 43200) 86400 = d := by
    rw [show (86400 * d + 43200 - 43200 : Int) = d * 86400 by ring]
    exact Int.mul_fdiv_cancel d (by norm_num)
  have h9 : tvdbKey (some 9) = "9" := by decide
  unfold get_series_ready_for_removal get_series_with_watch_status
  rw [hh, hlkp, hall]
  simp only [if_neg hfalse]
  simp [annotateSeries, countWatchedEpisodes, seasonFilterSkips,
    seriesWatchStatus, completionPercentage, seriesMostRecentTs, h9,
    truthyStr, alookup, daysCheck, hdiv]

theorem boundary_series_not_eligible (d : Int) :
    get_series_ready_for_removal boundaryRawSeries boundaryTagLookup
      boundaryPattern (boundaryEpHist (d - 1) (86400 * d + 43200))
      boundaryCache (86400 * d + 43200) d "series" = [] := by
  have hfalse : ¬ truthyStr (none : Option String) := by simp [truthyStr]
  have hh : boundaryEpHist (d - 1) (86400 * d + 43200) =
      [⟨some 7, some 1, some 1, "alice", some 129600⟩] := by
    unfold boundaryEpHist
    rw [show 86400 * d + 43200 - (d - 1) * 86400 = 129600 by ring]
  have hlkp : buildEpisodeWatchLookup boundaryCache
      [⟨some 7, some 1, some 1, "alice", some 129600⟩] =
      [("9", [((1, 1), [("alice", 129600)])])] := by decide
  have hall : get_all_sonarr_series boundaryRawSeries boundaryTagLookup
      boundaryPattern false =
      [⟨1, "Show", some 9, some "alice", 1, 1, true, [⟨1, 1, 1, ⟨0⟩⟩], [2],
        ⟨1, 1⟩⟩] := by decide
  have hdiv : Int.fdiv (86400 * d + 43200 - 129600) 86400 = d - 1 := by
    rw [show (86400 * d + 43200 - 129600 : Int) = (d - 1) * 86400 by ring]
    exact Int.mul_fdiv_cancel (d - 1) (by norm_num)
  have h9 : tvdbKey (some 9) = "9" := by decide
  unfold get_series_ready_for_removal get_series_with_watch_status
  rw [hh, hlkp, hall]
  simp only [if_neg hfalse]
  simp [annotateSeries, countWatchedEpisodes, seasonFilterSkips,
    seriesWatchStatus, completionPercentage, seriesMostRecentTs, h9,
    truthyStr, alookup, daysCheck, hdiv]

/-- C7: the removal threshold is an inclusive lower bound, for every positive
min_days_watched `d`: a movie watched by its requester exactly `d` days ago
is eligible and one watched `d - 1` days ago is not; a series fully watched
by its requester exactly `d` days ago is eligible (series granularity) and
one watched `d - 1` days ago is not. -/
theorem removal_threshold_inclusive (d : Int) (hd : 0 < d) :
    ((get_movies_ready_for_removal boundaryRawMovies boundaryTagLookup
        boundaryPattern (boundaryMovieHist d (86400 * d + 43200))
        boundaryRatingToImdb (86400 * d + 43200) d).map (·.movieId) = [1]) ∧
    (get_movies_ready_for_removal boundaryRawMovies boundaryTagLookup
        boundaryPattern (boundaryMovieHist (d - 1) (86400 * d + 43200))
        boundaryRatingToImdb (86400 * d + 43200) d = []) ∧
    ((get_series_ready_for_removal boundaryRawSeries boundaryTagLookup
        boundaryPattern (boundaryEpHist d (86400 * d + 43200)) boundaryCache
        (86400 * d + 43200) d "series").map
      (fun item => item.series.seriesId) = [1]) ∧
    (get_series_ready_for_removal boundaryRawSeries boundaryTagLookup
        boundaryPattern (boundaryEpHist (d - 1) (86400 * d + 43200))
        boundaryCache (86400 * d + 43200) d "series" = []) :=
  ⟨boundary_movie_eligible d, boundary_movie_not_eligible d,
   boundary_series_eligible d, boundary_series_not_eligible d⟩

/-- Witness for removal_threshold_inclusive at d = 60. -/
theorem removal_threshold_inclusive_witness :
    (get_movies_ready_for_removal boundaryRawMovies boundaryTagLookup
        boundaryPattern (boundaryMovieHist 60 (86400 * 60 + 43200))
        boundaryRatingToImdb (86400 * 60 + 43200) 60).map (·.movieId) = [1] :=
  (removal_threshold_inclusive 60 (by decide)).1

/-- Per-episode watch info as consumed by the episode removal path
(series_service.py:351-400): days since watched and the most recent watch. -/
structure EpWatchInfo where
  days_since_watched : Int
  most_recent_watch : Int
deriving DecidableEq

/-- An annotated series as consumed by
SeriesService.get_episodes_ready_for_removal and
SeriesService.get_series_ready_for_removal (series_service.py:283-529): the
dict keys those functions read, with the `episodes_watched` map
(user → episode key → watch info) that `_get_episode_watch_info` reads at
series_service.py:365 and `seasons_data`, both via `.get` with a default.
The removal scans are first embedded over this consumed view; the records
the visible producer get_series_with_watch_status actually emits carry
neither key (see SvcAnnotatedSeries and svcSeriesView below), which is why
those fields are [] for every record the program constructs. -/
structure SvcSeriesRec where
  seriesId : Nat
  title : String
  user : Option String
  episodes_watched : List (String × List ((Int × Int) × EpWatchInfo))
  tags : List Nat
  watch_status : String
  days_since_watched : Option Int
  seasons_data : List SeasonData
deriving DecidableEq

/-- A Sonarr episode as read by get_episodes_ready_for_removal
(series_service.py:450-524). -/
structure SonarrEpisode where
  episodeId : Int
  hasFile : Bool
  episodeFileId : Option Int
  seasonNumber : Int
  episodeNumber : Int
  title : String
deriving DecidableEq

/-- A Sonarr episode file: its id, size, and the ids of the episodes it
bundles (each element of the raw "episodes" list is read only for its
"id"). -/
structure SonarrEpisodeFile where
  fileId : Int
  size : Int
  episodes : List Int
deriving DecidableEq

/-- SeriesService._get_episode_watch_info (series_service.py:351-367):
`episodes_watched.get(user, {}).get(episode_key)`. -/
def get_episode_watch_info (series : SvcSeriesRec) (episodeKey : Int × Int)
    (user : String) : Option EpWatchInfo :=
  alookup ((alookup series.episodes_watched user).getD []) episodeKey

/-- SeriesService._check_all_episodes_watched (series_service.py:369-400):
True only when EVERY episode of the file has watch info for the user with
days_since_watched at least the threshold; in particular True on the empty
list. -/
def check_all_episodes_watched (episodesInFile : List SonarrEpisode)
    (series : SvcSeriesRec) (user : String) (daysWatched : Int) : Bool :=
  episodesInFile.all (fun ep =>
    match get_episode_watch_info series (ep.seasonNumber, ep.episodeNumber)
        user with
    | none => false
    | some watchInfo => decide (watchInfo.days_since_watched ≥ daysWatched))

/-- The file_id → episodes mapping of get_episodes_ready_for_removal
(series_service.py:453-464): for each file, the full episode objects found
by the first id match (the inner loop breaks at the first hit). -/
def buildFileToEpisodes (episodeFiles : List SonarrEpisodeFile)
    (episodes : List SonarrEpisode) : List (Int × List SonarrEpisode) :=
  episodeFiles.foldl (fun acc epFile =>
    aset acc epFile.fileId
      (epFile.episodes.filterMap (fun epId =>
        episodes.find? (fun fullEp => decide (fullEp.episodeId = epId))))) []

/-- An episode removal candidate (series_service.py:507-524); the
streaming_available field (a cache read, not part of the eligibility logic)
is omitted. -/
structure EpisodeRemovalRec where
  series_id : Nat
  series_title : String
  series_user : String
  episode_id : Int
  episode_file_id : Int
  episode_title : String
  season_number : Int
  episode_number : Int
  episode_key : Int × Int
  days_since_watched : Int
  most_recent_watch : Int
  file_size : Int
  tags : List Nat
deriving DecidableEq

/-- The per-series body of SeriesService.get_episodes_ready_for_removal
(series_service.py:441-524): skip untagged series (falsy user), require a
file and a truthy episode_file_id, require the requester's watch info at the
day threshold, and apply the multi-episode-file safety check before adding
the episode. -/
def episodesForSeries (getEpisodes : Nat → List SonarrEpisode)
    (getEpisodeFiles : Nat → List SonarrEpisodeFile) (daysWatched : Int)
    (series : SvcSeriesRec) : List EpisodeRemovalRec :=
  if ¬truthyStr series.user then []
  else
    let seriesUser := series.user.getD ""
    let episodes := getEpisodes series.seriesId
    let episodeFiles := getEpisodeFiles series.seriesId
    let fileToEpisodes := buildFileToEpisodes episodeFiles episodes
    episodes.filterMap (fun episode =>
      if ¬episode.hasFile then none
      else
        match episode.episodeFileId with
        | none => none
        | some episodeFileId =>
          if episodeFileId = 0 then none
          else
            let episodeKey := (episode.seasonNumber, episode.episodeNumber)
            match get_episode_watch_info series episodeKey seriesUser with
            | none => none
            | some watchInfo =>
              if watchInfo.days_since_watched < daysWatched then none
              else
                let episodesInFile :=
                  (alookup fileToEpisodes episodeFileId).getD []
                if ¬check_all_episodes_watched episodesInFile series
                    seriesUser daysWatched then none
                else
                  let fileSize :=
                    ((episodeFiles.find? (fun f =>
                      decide (f.fileId = episodeFileId))).map (·.size)).getD 0
                  some ⟨series.seriesId, series.title, seriesUser,
                    episode.episodeId, episodeFileId, episode.title,
                    episode.seasonNumber, episode.episodeNumber, episodeKey,
                    watchInfo.days_since_watched, watchInfo.most_recent_watch,
                    fileSize, series.tags⟩)

/-- The candidate scan of SeriesService.get_episodes_ready_for_removal
(series_service.py:439-529), over the annotated series list and the Sonarr
episode and episode-file lookups; the function body's own call to
get_series_with_watch_status (series_service.py:435-437) is composed in
get_episodes_ready_for_removal_full below. -/
def get_episodes_ready_for_removal (seriesWithStatus : List SvcSeriesRec)
    (getEpisodes : Nat → List SonarrEpisode)
    (getEpisodeFiles : Nat → List SonarrEpisodeFile) (daysWatched : Int) :
    List EpisodeRemovalRec :=
  seriesWithStatus.flatMap
    (episodesForSeries getEpisodes getEpisodeFiles daysWatched)

/-- An item of the series/season removal list of
SeriesService.get_series_ready_for_removal (series_service.py:327-344). -/
structure SvcRemovalItem where
  series : SvcSeriesRec
  removal_type : String
  season_number : Option Int
deriving DecidableEq

/-- SeriesService.get_series_ready_for_removal, series and season modes
(series_service.py:310-349), parameterized over the annotated series list
(episode mode dispatches to get_episodes_ready_for_removal at
series_service.py:307-308). -/
def svc_get_series_ready_for_removal (seriesWithStatus : List SvcSeriesRec)
    (daysWatched : Int) (removalMode : String) : List SvcRemovalItem :=
  seriesWithStatus.flatMap (fun series =>
    if ¬truthyStr series.user then []
    else if removalMode = "series" then
      if series.watch_status = "fully_watched" ∧
          daysCheck daysWatched series.days_since_watched then
        [⟨series, "series", none⟩]
      else []
    else if removalMode = "season" then
      series.seasons_data.filterMap (fun seasonData =>
        if seasonData.completion_percentage = (100 : ℚ) ∧
            daysCheck daysWatched series.days_since_watched then
          some ⟨series, "season", some seasonData.season_number⟩
        else none)
    else [])

theorem truthyStr_ne_none (o : Option String) (h : truthyStr o) : o ≠ none := by
  intro he
  subst he
  exact h rfl

theorem check_all_eq_true_iff (episodesInFile : List SonarrEpisode)
    (series : SvcSeriesRec) (user : String) (daysWatched : Int) :
    check_all_episodes_watched episodesInFile series user daysWatched = true ↔
      ∀ ep ∈ episodesInFile, ∃ watchInfo,
        get_episode_watch_info series (ep.seasonNumber, ep.episodeNumber) user
          = some watchInfo ∧ daysWatched ≤ watchInfo.days_since_watched := by
  unfold check_all_episodes_watched
  rw [List.all_eq_true]
  constructor
  · intro h ep hep
    have hmatch := h ep hep
    cases hwi : get_episode_watch_info series (ep.seasonNumber,
        ep.episodeNumber) user with
    | none => rw [hwi] at hmatch; simp at hmatch
    | some wi =>
      rw [hwi] at hmatch
      simp only [decide_eq_true_eq] at hmatch
      exact ⟨wi, rfl, hmatch⟩
  · intro h ep hep
    obtain ⟨wi, hwi, hd⟩ := h ep hep
    rw [hwi]
    simpa using hd

theorem mem_episodesForSeries (getEpisodes : Nat → List SonarrEpisode)
    (getEpisodeFiles : Nat → List SonarrEpisodeFile) (daysWatched : Int)
    (series : SvcSeriesRec) (r : EpisodeRemovalRec)
    (hr : r ∈ episodesForSeries getEpisodes getEpisodeFiles daysWatched
      series) :
    truthyStr series.user ∧ r.series_id = series.seriesId ∧
    r.series_user = series.user.getD "" ∧
    check_all_episodes_watched
      ((alookup (buildFileToEpisodes (getEpisodeFiles series.seriesId)
        (getEpisodes series.seriesId)) r.episode_file_id).getD [])
      series (series.user.getD "") daysWatched = true := by
  unfold episodesForSeries at hr
  by_cases ht : truthyStr series.user
  case neg =>
    rw [if_pos ht] at hr
    exact absurd hr (List.not_mem_nil r)
  rw [if_neg (not_not_intro ht)] at hr
  simp only [List.mem_filterMap] at hr
  obtain ⟨ep, hep, heq⟩ := hr
  by_cases hfile : ep.hasFile = true
  case neg =>
    rw [if_pos hfile] at heq
    exact absurd heq (by simp)
  rw [if_neg (not_not_intro hfile)] at heq
  cases hfid : ep.episodeFileId with
  | none =>
    rw [hfid] at heq
    simp only [] at heq
    exact absurd heq (by simp)
  | some fid =>
    rw [hfid] at heq
    simp only [] at heq
    by_cases h0 : fid = 0
    case pos =>
      rw [if_pos h0] at heq
      exact absurd heq (by simp)
    rw [if_neg h0] at heq
    cases hwi : get_episode_watch_info series (ep.seasonNumber,
        ep.episodeNumber) (series.user.getD "") with
    | none =>
      rw [hwi] at heq
      simp only [] at heq
      exact absurd heq (by simp)
    | some wi =>
      rw [hwi] at heq
      simp only [] at heq
      by_cases hlt : wi.days_since_watched < daysWatched
      case pos =>
        rw [if_pos hlt] at heq
        exact absurd heq (by simp)
      rw [if_neg hlt] at heq
      by_cases hchk : check_all_episodes_watched
          ((alookup (buildFileToEpisodes (getEpisodeFiles series.seriesId)
            (getEpisodes series.seriesId)) fid).getD [])
          series (series.user.getD "") daysWatched = true
      case neg =>
        rw [if_pos hchk] at heq
        exact absurd heq (by simp)
      rw [if_neg (not_not_intro hchk)] at heq
      obtain rfl := Option.some.inj heq
      exact ⟨ht, rfl, rfl, hchk⟩

theorem get_movies_ready_eq (movies : List RawMovie)
    (tagLookup : Nat → Except Unit Tag) (pattern : String → Option String)
    (hist : List MovieHistRecord) (ratingToImdb : Int → Option String)
    (now daysWatched : Int) :
    get_movies_ready_for_removal movies tagLookup pattern hist ratingToImdb
      now daysWatched =
    ((get_all_radarr_movies movies tagLookup pattern false).map
      (annotateMovie (buildMovieWatchLookup ratingToImdb hist) now)).filter
      (movieRemovalCheck daysWatched) := by
  unfold get_movies_ready_for_removal get_movies_with_watch_status
  simp only [if_neg (show ¬ truthyStr (none : Option String) by
    simp [truthyStr])]

/-- C4: no removal candidate ever has an unresolved requester. Movies:
every output of get_movies_ready_for_removal has user ≠ none. Series and
season granularity (both the PrunArr pipeline and the SeriesService variant,
the latter for every input list): every output item's series has
user ≠ none. Episode granularity: every output record comes from an input
series with user ≠ none, whose (non-None) username it carries. -/
theorem untagged_never_removal_candidate :
    (∀ (movies : List RawMovie) (tagLookup : Nat → Except Unit Tag)
        (pattern : String → Option String) (hist : List MovieHistRecord)
        (ratingToImdb : Int → Option String) (now daysWatched : Int)
        (m : MovieStatusRec),
      m ∈ get_movies_ready_for_removal movies tagLookup pattern hist
        ratingToImdb now daysWatched → m.user ≠ none) ∧
    (∀ (seriesList : List RawSeries) (tagLookup : Nat → Except Unit Tag)
        (pattern : String → Option String) (ephist : List EpisodeHistRecord)
        (cache : Int → Option String) (now daysWatched : Int)
        (removalMode : String) (item : SeriesRemovalItem),
      item ∈ get_series_ready_for_removal seriesList tagLookup pattern ephist
        cache now daysWatched removalMode → item.series.user ≠ none) ∧
    (∀ (seriesWithStatus : List SvcSeriesRec) (daysWatched : Int)
        (removalMode : String) (item : SvcRemovalItem),
      item ∈ svc_get_series_ready_for_removal seriesWithStatus daysWatched
        removalMode → item.series.user ≠ none) ∧
    (∀ (seriesWithStatus : List SvcSeriesRec)
        (getEpisodes : Nat → List SonarrEpisode)
        (getEpisodeFiles : Nat → List SonarrEpisodeFile) (daysWatched : Int)
        (r : EpisodeRemovalRec),
      r ∈ get_episodes_ready_for_removal seriesWithStatus getEpisodes
        getEpisodeFiles daysWatched →
      ∃ s ∈ seriesWithStatus, s.user ≠ none ∧ r.series_id = s.seriesId ∧
        r.series_user = s.user.getD "") := by
  refine ⟨?_, ?_, ?_, ?_⟩
  · intro movies tagLookup pattern hist ratingToImdb now daysWatched m hm
    rw [get_movies_ready_eq] at hm
    have hmap := (List.mem_filter.mp hm).1
    rw [List.mem_map] at hmap
    obtain ⟨m₀, hm₀, heq⟩ := hmap
    have ht := get_all_radarr_movies_user_truthy movies tagLookup pattern m₀
      hm₀
    have huser : m.user = m₀.user := by rw [← heq]; rfl
    rw [huser]
    exact truthyStr_ne_none _ ht
  · intro seriesList tagLookup pattern ephist cache now daysWatched
      removalMode item hitem
    unfold get_series_ready_for_removal at hitem
    rw [List.mem_flatMap] at hitem
    obtain ⟨series, _, hmem⟩ := hitem
    by_cases ht : truthyStr series.user
    case neg =>
      rw [if_pos ht] at hmem
      exact absurd hmem (List.not_mem_nil _)
    rw [if_neg (not_not_intro ht)] at hmem
    split_ifs at hmem with h1 h2 h3
    · simp only [List.mem_singleton] at hmem
      subst hmem
      exact truthyStr_ne_none _ ht
    · exact absurd hmem (List.not_mem_nil _)
    · rw [List.mem_filterMap] at hmem
      obtain ⟨seasonData, _, heq⟩ := hmem
      by_cases hc : seasonData.completion_percentage = (100 : ℚ) ∧
          daysCheck daysWatched series.days_since_watched
      · rw [if_pos hc] at heq
        obtain rfl := Option.some.inj heq
        exact truthyStr_ne_none _ ht
      · rw [if_neg hc] at heq
        exact absurd heq (by simp)
    · exact absurd hmem (List.not_mem_nil _)
  · intro seriesWithStatus daysWatched removalMode item hitem
    unfold svc_get_series_ready_for_removal at hitem
    rw [List.mem_flatMap] at hitem
    obtain ⟨series, _, hmem⟩ := hitem
    by_cases ht : truthyStr series.user
    case neg =>
      rw [if_pos ht] at hmem
      exact absurd hmem (List.not_mem_nil _)
    rw [if_neg (not_not_intro ht)] at hmem
    split_ifs at hmem with h1 h2 h3
    · simp only [List.mem_singleton] at hmem
      subst hmem
      exact truthyStr_ne_none _ ht
    · exact absurd hmem (List.not_mem_nil _)
    · rw [List.mem_filterMap] at hmem
      obtain ⟨seasonData, _, heq⟩ := hmem
      by_cases hc : seasonData.completion_percentage = (100 : ℚ) ∧
          daysCheck daysWatched series.days_since_watched
      · rw [if_pos hc] at heq
        obtain rfl := Option.some.inj heq
        exact truthyStr_ne_none _ ht
      · rw [if_neg hc] at heq
        exact absurd heq (by simp)
    · exact absurd hmem (List.not_mem_nil _)
  · intro seriesWithStatus getEpisodes getEpisodeFiles daysWatched r hr
    unfold get_episodes_ready_for_removal at hr
    rw [List.mem_flatMap] at hr
    obtain ⟨series, hs, hmem⟩ := hr
    obtain ⟨ht, hsid, huser, _⟩ := mem_episodesForSeries getEpisodes
      getEpisodeFiles daysWatched series r hmem
    exact ⟨series, hs, truthyStr_ne_none _ ht, hsid, huser⟩

/-- Witness for untagged_never_removal_candidate at a concrete eligible
movie. -/
theorem untagged_never_removal_candidate_witness :
    (⟨1, "Item", some "tt0000007", some "alice", [2], "watched", some 43200,
      some 60, ["alice"]⟩ : MovieStatusRec).user ≠ none :=
  untagged_never_removal_candidate.1 boundaryRawMovies boundaryTagLookup
    boundaryPattern (boundaryMovieHist 60 (86400 * 60 + 43200))
    boundaryRatingToImdb (86400 * 60 + 43200) 60 _ (by decide)

theorem alookup_foldl_aset (g : SonarrEpisodeFile → List SonarrEpisode)
    (files : List SonarrEpisodeFile) (init : List (Int × List SonarrEpisode))
    (fid : Int) (h : fid ∉ files.map (·.fileId)) :
    alookup (files.foldl
      (fun acc epFile => aset acc epFile.fileId (g epFile)) init) fid =
      alookup init fid := by
  induction files generalizing init with
  | nil => rfl
  | cons f rest ih =>
    rw [List.foldl_cons]
    have hne : f.fileId ≠ fid := fun he => h (by simp [he])
    rw [ih _ (fun hm => h (List.mem_cons_of_mem _ hm)),
      alookup_aset_ne _ _ _ _ hne]

/-- C3: _check_all_episodes_watched is vacuously true on an empty
episodes_in_file list, for every series record, username and threshold;
consequently, inside get_episodes_ready_for_removal, an episode whose
episode_file_id does not appear among the series' episode files (so
file_to_episodes.get yields []) passes the multi-episode-file safety check
vacuously and is added to the candidate list (with file size 0). -/
theorem check_all_empty_vacuous :
    (∀ (series : SvcSeriesRec) (user : String) (daysWatched : Int),
      check_all_episodes_watched [] series user daysWatched = true) ∧
    (∀ (seriesWithStatus : List SvcSeriesRec)
        (getEpisodes : Nat → List SonarrEpisode)
        (getEpisodeFiles : Nat → List SonarrEpisodeFile) (daysWatched : Int)
        (s : SvcSeriesRec) (ep : SonarrEpisode) (fid : Int)
        (watchInfo : EpWatchInfo),
      s ∈ seriesWithStatus → truthyStr s.user →
      ep ∈ getEpisodes s.seriesId → ep.hasFile = true →
      ep.episodeFileId = some fid → fid ≠ 0 →
      get_episode_watch_info s (ep.seasonNumber, ep.episodeNumber)
        (s.user.getD "") = some watchInfo →
      daysWatched ≤ watchInfo.days_since_watched →
      fid ∉ (getEpisodeFiles s.seriesId).map (·.fileId) →
      ∃ r ∈ get_episodes_ready_for_removal seriesWithStatus getEpisodes
          getEpisodeFiles daysWatched,
        r.episode_id = ep.episodeId ∧ r.episode_file_id = fid) := by
  constructor
  · intro series user daysWatched
    rfl
  · intro seriesWithStatus getEpisodes getEpisodeFiles daysWatched s ep fid
      watchInfo hs ht hep hfile hfid h0 hwi hd hnot
    have hlkp : alookup (buildFileToEpisodes (getEpisodeFiles s.seriesId)
        (getEpisodes s.seriesId)) fid = none := by
      unfold buildFileToEpisodes
      rw [alookup_foldl_aset _ _ _ _ hnot]
      rfl
    have hfind : (getEpisodeFiles s.seriesId).find?
        (fun f => decide (f.fileId = fid)) = none := by
      rw [List.find?_eq_none]
      intro f hf
      simp only [decide_eq_true_eq]
      intro he
      exact hnot (he ▸ List.mem_map_of_mem _ hf)
    refine ⟨⟨s.seriesId, s.title, s.user.getD "", ep.episodeId, fid, ep.title,
      ep.seasonNumber, ep.episodeNumber, (ep.seasonNumber, ep.episodeNumber),
      watchInfo.days_since_watched, watchInfo.most_recent_watch, 0, s.tags⟩,
      ?_, rfl, rfl⟩
    unfold get_episodes_ready_for_removal
    rw [List.mem_flatMap]
    refine ⟨s, hs, ?_⟩
    unfold episodesForSeries
    rw [if_neg (not_not_intro ht)]
    simp only [List.mem_filterMap]
    refine ⟨ep, hep, ?_⟩
    rw [if_neg (not_not_intro hfile), hfid]
    simp only []
    rw [if_neg h0, hwi]
    simp only []
    rw [if_neg (not_lt.mpr hd), hlkp]
    simp only [Option.getD_none]
    rw [if_neg (not_not_intro (show check_all_episodes_watched [] s
      (s.user.getD "") daysWatched = true from rfl))]
    rw [hfind]
    rfl

def c3Series : SvcSeriesRec :=
  ⟨1, "Orphan", some "alice", [("alice", [((2, 3), ⟨90, 1690000000⟩)])], [4],
    "partially_watched", some 90, []⟩

def c3Episodes : Nat → List SonarrEpisode :=
  fun _ => [⟨201, true, some 99, 2, 3, "Ep"⟩]

def c3Files : Nat → List SonarrEpisodeFile := fun _ => []

/-- Witness for check_all_empty_vacuous: an episode whose file id 99 appears
in no episode file record is still a removal candidate. -/
theorem check_all_empty_vacuous_witness :
    ∃ r ∈ get_episodes_ready_for_removal [c3Series] c3Episodes c3Files 60,
      r.episode_id = 201 ∧ r.episode_file_id = 99 :=
  check_all_empty_vacuous.2 [c3Series] c3Episodes c3Files 60 c3Series
    ⟨201, true, some 99, 2, 3, "Ep"⟩ 99 ⟨90, 1690000000⟩ (by decide)
    (by decide) (by decide) (by decide) (by decide) (by decide) (by decide)
    (by decide) (by decide)

def c2Episodes : Nat → List SonarrEpisode := fun _ =>
  [⟨101, true, some 10, 1, 1, "E1"⟩, ⟨102, true, some 10, 1, 2, "E2"⟩]

def c2Files : Nat → List SonarrEpisodeFile :=
  fun _ => [⟨10, 734003200, [101, 102]⟩]

/-- The annotated series record that
SeriesService.get_series_with_watch_status actually emits
(series_service.py:259-279): the spread of the get_all_series record
(series_service.py:107-126) plus the watch fields. Its key set is fixed in
the source whatever the delegated watch_calculator / media_matcher helpers
(absent from this snapshot) compute for the field VALUES — so those values
are arbitrary here — and it contains neither "episodes_watched" nor
"seasons_data". Display-only keys (year, imdb_id, added, monitored, status,
seasons, tag_labels, statistics, streaming_available) are omitted. -/
structure SvcAnnotatedSeries where
  seriesId : Nat
  title : String
  tvdb_id : Option Nat
  user : Option String
  tags : List Nat
  watch_status : String
  watched_episodes : Nat
  total_episodes : Int
  completion_percentage : ℚ
  most_recent_watch : Option Int
  days_since_watched : Option Int
  available_seasons : String
  total_size_on_disk : Int
deriving DecidableEq

/-- Reading an emitted record where the removal scans consume it:
`series.get("episodes_watched", {})` (series_service.py:365) and
`series.get("seasons_data", [])` (series_service.py:331) fall back to their
defaults because the emitted dict carries neither key. -/
def svcSeriesView (s : SvcAnnotatedSeries) : SvcSeriesRec :=
  ⟨s.seriesId, s.title, s.user, [], s.tags, s.watch_status,
    s.days_since_watched, []⟩

/-- SeriesService.get_episodes_ready_for_removal including its self-call:
the series list scanned by the candidate loop is the output of
get_series_with_watch_status (series_service.py:435-437), abstracted as an
arbitrary list of the records that producer can emit. -/
def get_episodes_ready_for_removal_full (annotated : List SvcAnnotatedSeries)
    (getEpisodes : Nat → List SonarrEpisode)
    (getEpisodeFiles : Nat → List SonarrEpisodeFile) (daysWatched : Int) :
    List EpisodeRemovalRec :=
  get_episodes_ready_for_removal (annotated.map svcSeriesView) getEpisodes
    getEpisodeFiles daysWatched

theorem episodesForSeries_empty_watched
    (getEpisodes : Nat → List SonarrEpisode)
    (getEpisodeFiles : Nat → List SonarrEpisodeFile) (daysWatched : Int)
    (series : SvcSeriesRec) (h : series.episodes_watched = []) :
    episodesForSeries getEpisodes getEpisodeFiles daysWatched series = [] := by
  unfold episodesForSeries
  by_cases ht : truthyStr series.user
  case neg => rw [if_pos ht]
  rw [if_neg (not_not_intro ht)]
  simp only [List.filterMap_eq_nil_iff]
  intro ep hep
  have hwi : get_episode_watch_info series
      (ep.seasonNumber, ep.episodeNumber) (series.user.getD "") = none := by
    unfold get_episode_watch_info
    rw [h]
    rfl
  by_cases hfile : ep.hasFile = true
  case neg => rw [if_pos hfile]
  rw [if_neg (not_not_intro hfile)]
  cases hfid : ep.episodeFileId with
  | none => rfl
  | some fid =>
    simp only []
    by_cases h0 : fid = 0
    · rw [if_pos h0]
    · rw [if_neg h0, hwi]

/-- The record the producer would emit for the series whose file bundles E1
and E2, both fully watched by the requester at least 60 days ago. -/
def c2AnnotatedFull : SvcAnnotatedSeries :=
  ⟨1, "Show", some 77, some "alice", [2], "fully_watched", 2, 2, 100,
    some 1690000000, some 60, "1", 734003200⟩

/-- C2 is a code bug: the multi-episode-file safety rule the claim states is
implemented in get_episodes_ready_for_removal
(series_service.py:486-497, via _check_all_episodes_watched), and its own
docstring promises candidates for episodes "fully watched by the requester";
but the series records the function scans come from its self-call to
get_series_with_watch_status (series_service.py:435-437), whose emitted
dicts never carry the "episodes_watched" key that _get_episode_watch_info
reads (series_service.py:365; the key is written nowhere in the repository).
Every episode is therefore skipped at the watch-info guard
(series_service.py:483), and the function returns [] for every input —
proved here for every possible producer output and every episode/file
layout. In particular, the file whose episodes E1 and E2 are both watched at
least 60 days ago never becomes a removal candidate, contradicting the
claim's (and the spec's) positive half; the negative half (one unwatched
sibling blocks the file) holds only vacuously. -/
theorem multi_episode_candidates_never_emitted :
    (∀ (annotated : List SvcAnnotatedSeries)
        (getEpisodes : Nat → List SonarrEpisode)
        (getEpisodeFiles : Nat → List SonarrEpisodeFile) (daysWatched : Int),
      get_episodes_ready_for_removal_full annotated getEpisodes
        getEpisodeFiles daysWatched = []) ∧
    get_episodes_ready_for_removal_full [c2AnnotatedFull] c2Episodes c2Files
      60 = [] := by
  have hmain : ∀ (annotated : List SvcAnnotatedSeries)
      (getEpisodes : Nat → List SonarrEpisode)
      (getEpisodeFiles : Nat → List SonarrEpisodeFile) (daysWatched : Int),
      get_episodes_ready_for_removal_full annotated getEpisodes
        getEpisodeFiles daysWatched = [] := by
    intro annotated getEpisodes getEpisodeFiles daysWatched
    unfold get_episodes_ready_for_removal_full get_episodes_ready_for_removal
    rw [List.flatMap_eq_nil_iff]
    intro s hs
    rw [List.mem_map] at hs
    obtain ⟨a, _, rfl⟩ := hs
    exact episodesForSeries_empty_watched _ _ _ _ rfl
  exact ⟨hmain, hmain _ _ _ _⟩
